import Mathlib

/-!
RizzScript core interpreter: a shallow embedding.

This file embeds the core of the RizzScript tree-walking interpreter
(`src/frontend/parser.ts` lexer and `Environment`, `src/runtime/eval/statements.ts`,
the expression evaluator and runtime value model) into Lean and proves
properties of the embedded definitions.

Modelling conventions:
* JavaScript heap sharing (objects, arrays, environments are mutable and shared
  by reference) is modelled with an explicit heap: a list of cells addressed by
  position.  `Val.obj`/`Val.arr` carry a cell address, so JS reference identity
  is address equality.
* IEEE doubles are abstracted as rationals (`ℚ`).  No claim in this development
  depends on floating-point rounding, NaN or infinities; integer-valued
  arithmetic, which is what the theorems exercise, is exact in both models.
* JS exceptions are an error component of the result; a thrown value is carried
  together with the heap at throw time (mutations before a failure persist).
* The JS value `undefined` (which the interpreter stores into environments when
  a call supplies fewer arguments than parameters, and which property reads of
  missing keys produce) is modelled as `Val.jsUndefined`.  Thrown message
  strings are `Val.jsString`; a host `TypeError` raised by reading a property
  of `undefined` is `Val.jsError`.  These three are host artifacts, not
  language-level runtime values: `Val.isRuntimeValue` singles out the eight
  documented runtime tags.
* Error message texts are kept recognizable but abbreviated (emoji prefixes and
  interpolated data are elided); no theorem depends on message contents.
* Native functions are external collaborators per the specification; they are
  modelled as an opaque tag whose invocation returns null with no effect.
  No theorem below exercises a native call.
-/

namespace RizzScript

/-- AST node kinds, as produced by the parser (`src/frontend/ast` shapes, read
off their construction sites in `parser.ts` and their uses in the evaluator). -/
inductive Node where
  | program (body : List Node)
  | varDecl (constant : Bool) (identifier : String) (value : Option Node)
  | fnDecl (name : String) (params : List String) (body : List Node)
  | ifStmt (test : Node) (body : List Node) (alternate : Option (List Node))
  | forStmt (init : Node) (test : Node) (update : Node) (body : List Node)
  | tryCatch (body : List Node) (alternate : List Node)
  | assign (assignee : Node) (value : Node)
  | binop (left : Node) (right : Node) (operator : String)
  | call (callee : Node) (args : List Node)
  | member (object : Node) (property : Node) (computed : Bool)
  | ident (symbol : String)
  | numLit (value : ℚ)
  | strLit (value : String)
  | objLit (properties : List (String × Option Node))
  | arrLit (values : List Node)

mutual

/-- Structural equality of AST nodes (Boolean).  Used as the stand-in for JS
reference equality of `FunctionValue.body` statement arrays in `equals`:
in the source two closures compare equal iff they share the body array object;
structurally equal bodies are the computable proxy for that. -/
def nodeBEq : Node → Node → Bool
  | .program b1, .program b2 => nodeListBEq b1 b2
  | .varDecl c1 i1 v1, .varDecl c2 i2 v2 => c1 == c2 && i1 == i2 && nodeOptBEq v1 v2
  | .fnDecl n1 p1 b1, .fnDecl n2 p2 b2 => n1 == n2 && p1 == p2 && nodeListBEq b1 b2
  | .ifStmt t1 b1 a1, .ifStmt t2 b2 a2 =>
      nodeBEq t1 t2 && nodeListBEq b1 b2 && nodeOptListBEq a1 a2
  | .forStmt i1 t1 u1 b1, .forStmt i2 t2 u2 b2 =>
      nodeBEq i1 i2 && nodeBEq t1 t2 && nodeBEq u1 u2 && nodeListBEq b1 b2
  | .tryCatch b1 a1, .tryCatch b2 a2 => nodeListBEq b1 b2 && nodeListBEq a1 a2
  | .assign a1 v1, .assign a2 v2 => nodeBEq a1 a2 && nodeBEq v1 v2
  | .binop l1 r1 o1, .binop l2 r2 o2 => nodeBEq l1 l2 && nodeBEq r1 r2 && o1 == o2
  | .call c1 a1, .call c2 a2 => nodeBEq c1 c2 && nodeListBEq a1 a2
  | .member o1 p1 c1, .member o2 p2 c2 => nodeBEq o1 o2 && nodeBEq p1 p2 && c1 == c2
  | .ident s1, .ident s2 => s1 == s2
  | .numLit v1, .numLit v2 => v1 == v2
  | .strLit v1, .strLit v2 => v1 == v2
  | .objLit p1, .objLit p2 => nodePropsBEq p1 p2
  | .arrLit v1, .arrLit v2 => nodeListBEq v1 v2
  | _, _ => false

def nodeListBEq : List Node → List Node → Bool
  | [], [] => true
  | n1 :: r1, n2 :: r2 => nodeBEq n1 n2 && nodeListBEq r1 r2
  | _, _ => false

def nodeOptBEq : Option Node → Option Node → Bool
  | none, none => true
  | some n1, some n2 => nodeBEq n1 n2
  | _, _ => false

def nodeOptListBEq : Option (List Node) → Option (List Node) → Bool
  | none, none => true
  | some l1, some l2 => nodeListBEq l1 l2
  | _, _ => false

def nodePropsBEq : List (String × Option Node) → List (String × Option Node) → Bool
  | [], [] => true
  | (k1, v1) :: r1, (k2, v2) :: r2 => k1 == k2 && nodeOptBEq v1 v2 && nodePropsBEq r1 r2
  | _, _ => false

end

/-- Runtime values (`src/runtime/values`), plus the three host-level JS values
that the interpreter lets leak into the runtime: `jsUndefined` (JS `undefined`),
`jsString` (a thrown bare message string), `jsError` (a host `TypeError`).
Objects, arrays and environments live on the heap; `obj`/`arr` carry addresses,
and `fn` carries the address of its captured declaration environment. -/
inductive Val where
  | null
  | bool (b : Bool)
  | num (value : ℚ)
  | str (value : String)
  | obj (addr : Nat)
  | arr (addr : Nat)
  | fn (name : String) (params : List String) (declarationEnv : Nat) (body : List Node)
  | nativeFn (id : Nat)
  | jsUndefined
  | jsString (s : String)
  | jsError (msg : String)

/-- The eight documented runtime-value tags; host artifacts are excluded. -/
def Val.isRuntimeValue : Val → Bool
  | .null | .bool _ | .num _ | .str _ | .obj _ | .arr _ | .fn _ _ _ _ | .nativeFn _ => true
  | .jsUndefined | .jsString _ | .jsError _ => false

/-- An object-property key.  JS `Map` accepts any value as a key; the
interpreter only ever uses strings — except for the computed-write path in
`lookupOrMutObject`, which can call `properties.set(undefined, v)`. -/
inductive JsKey where
  | strKey (s : String)
  | undefKey
deriving DecidableEq

/-- One environment record: parent link, local variable map (insertion
ordered, like a JS `Map`), and the set of names declared constant. -/
structure EnvData where
  parent : Option Nat
  vars : List (String × Val)
  consts : List String

/-- A heap cell: an environment, an object (string-keyed insertion-ordered
map) or an array. -/
inductive Cell where
  | env (e : EnvData)
  | objCell (properties : List (JsKey × Val))
  | arrCell (elements : List Val)

/-- The heap: cells addressed by list position; allocation appends. -/
abbrev Heap := List Cell

def Heap.alloc (h : Heap) (c : Cell) : Nat × Heap := (h.length, h ++ [c])

def Heap.getCell (h : Heap) (a : Nat) : Option Cell := h.get? a

def Heap.setCell (h : Heap) (a : Nat) (c : Cell) : Heap := h.set a c

def Heap.envAt (h : Heap) (a : Nat) : Option EnvData :=
  match h.getCell a with
  | some (.env e) => some e
  | _ => none

/-- JS `Map.prototype.has` on an association list. -/
def mapHas [BEq κ] (m : List (κ × Val)) (k : κ) : Bool := m.any (fun p => p.1 == k)

/-- JS `Map.prototype.get` on an association list (`none` = JS `undefined`). -/
def mapGet [BEq κ] (m : List (κ × Val)) (k : κ) : Option Val :=
  (m.find? (fun p => p.1 == k)).map Prod.snd

/-- JS `Map.prototype.set` on an association list: update in place if the key
exists (keeping insertion order), otherwise append. -/
def mapSet [BEq κ] : List (κ × Val) → κ → Val → List (κ × Val)
  | [], k, v => [(k, v)]
  | (k1, v1) :: rest, k, v =>
      if k1 == k then (k1, v) :: rest else (k1, v1) :: mapSet rest k v

/-- Evaluation-level failures.  `thrown` is a JS `throw` (interceptable by the
interpreter's try/catch); `outOfFuel` marks exhausted recursion fuel (the
source would simply keep running); `internalErr` marks states unreachable from
well-formed programs and heaps (e.g. an environment address that is not an
environment cell). -/
inductive EErr where
  | thrown (v : Val)
  | outOfFuel
  | internalErr (msg : String)

/-- Result of a heap-threading computation: on success a value and the updated
heap, on failure the error and the heap at failure time (JS mutations made
before a throw persist). -/
abbrev EvalRes := Except (EErr × Heap) (Val × Heap)

/-- Lift a pure `Except` computation, attaching the current heap. -/
def ofExcept (h : Heap) : Except EErr α → Except (EErr × Heap) (α × Heap)
  | .ok a => .ok (a, h)
  | .error e => .error (e, h)

/-- `Environment.resolve`, walking the parent chain.  The chain length is
bounded by the heap size for any heap the semantics can build, so the
recursion is bounded by `h.length + 1`; running out means a parent cycle,
which is unreachable and reported as an internal error. -/
def resolveAux : Nat → Heap → Nat → String → Except EErr Nat
  | 0, _, _, _ => .error (.internalErr ("environment parent cycle"))
  | steps + 1, h, a, varname =>
    match h.envAt a with
    | none => .error (.internalErr ("not an environment cell"))
    | some e =>
      if mapHas e.vars varname then .ok a
      else
        match e.parent with
        | none => .error (.thrown (.jsString ("Cannot resolve " ++ varname ++ " as it does not exist.")))
        | some p => resolveAux steps h p varname

def resolve (h : Heap) (a : Nat) (varname : String) : Except EErr Nat :=
  resolveAux (h.length + 1) h a varname

/-- `Environment.declareVariable`: fails if the name already exists in the
current scope, otherwise adds the binding (and marks it constant). -/
def declareVariable (h : Heap) (a : Nat) (varname : String) (v : Val) (isConst : Bool) :
    Except EErr (Val × Heap) :=
  match h.envAt a with
  | none => .error (.internalErr ("not an environment cell"))
  | some e =>
    if mapHas e.vars varname then
      .error (.thrown (.jsString ("Variable " ++ varname ++ " is already defined.")))
    else
      .ok (v, h.setCell a (.env { e with
        vars := mapSet e.vars varname v,
        consts := if isConst then e.consts ++ [varname] else e.consts }))

/-- `Environment.assignVariable`: resolves the nearest scope declaring the
name (throwing if none), refuses constants, and updates the binding there. -/
def assignVariable (h : Heap) (a : Nat) (varname : String) (v : Val) :
    Except EErr (Val × Heap) := do
  let a1 ← resolve h a varname
  match h.envAt a1 with
  | none => .error (.internalErr ("not an environment cell"))
  | some e =>
    if e.consts.contains varname then
      .error (.thrown (.jsString ("Cannot reassign to constant variable " ++ varname ++ ".")))
    else
      .ok (v, h.setCell a1 (.env { e with vars := mapSet e.vars varname v }))

/-- `Environment.lookupVariable`: resolve, then read the binding. -/
def lookupVariable (h : Heap) (a : Nat) (varname : String) : Except EErr Val := do
  let a1 ← resolve h a varname
  match h.envAt a1 with
  | none => .error (.internalErr ("not an environment cell"))
  | some e => .ok ((mapGet e.vars varname).getD .jsUndefined)

/-- Reading the `.type` field, as every `switch (v.type)` / `v.type !== t`
in the source does.  `undefined` has no properties: reading `.type` on it is a
host `TypeError` throw.  Host strings and error objects have no `type`
property; the read yields JS `undefined`, here `none`. -/
def typeTag : Val → Except EErr (Option String)
  | .jsUndefined => .error (.thrown (.jsError ("TypeError: cannot read properties of undefined")))
  | .null => .ok (some ("null"))
  | .bool _ => .ok (some ("boolean"))
  | .num _ => .ok (some ("number"))
  | .str _ => .ok (some ("string"))
  | .obj _ => .ok (some ("object"))
  | .arr _ => .ok (some ("array"))
  | .fn _ _ _ _ => .ok (some ("fn"))
  | .nativeFn _ => .ok (some ("native-fn"))
  | .jsString _ => .ok none
  | .jsError _ => .ok none

/-- `(v as BooleanValue).value === true`, the test used by `evalIfStatement`
and by `evalForStatement` before the first iteration.  Only a boolean value
stores a boolean in its `value` field; every other runtime value either has a
non-boolean `value` (null/number/string) or no `value` field at all
(JS `undefined`), so only `Val.bool true` passes.  Reading any field of
JS `undefined` throws. -/
def isValueTrue : Val → Except EErr Bool
  | .jsUndefined => .error (.thrown (.jsError ("TypeError: cannot read properties of undefined")))
  | .bool b => .ok b
  | _ => .ok false

/-- `while ((test as BooleanValue).value)`, the loop-continuation test of
`evalForStatement`: JS truthiness of whatever the `value` field holds.
Null values hold `null` (falsy); numbers are truthy iff nonzero; strings iff
nonempty; objects/arrays/functions/native functions have no `value` field, so
the read yields `undefined` (falsy). -/
def isValueTruthy : Val → Except EErr Bool
  | .jsUndefined => .error (.thrown (.jsError ("TypeError: cannot read properties of undefined")))
  | .null => .ok false
  | .bool b => .ok b
  | .num q => .ok (q != 0)
  | .str s => .ok (s != "")
  | _ => .ok false

/-- A JS value as read from a field of a runtime value by `equals`
(`.value`, `.body`, `.call`, `.properties` or `.elements`).  References are
identified by the heap address (objects, arrays) or the host callback identity
(native functions); function bodies are statement arrays compared by
reference in the source, modelled by their contents. -/
inductive FieldV where
  | undefF
  | nullF
  | boolF (b : Bool)
  | numF (q : ℚ)
  | strF (s : String)
  | propsRef (addr : Nat)
  | elemsRef (addr : Nat)
  | callRef (id : Nat)
  | bodyRef (body : List Node)

/-- The field names `equals` reads, one per left-operand tag. -/
inductive FieldName where
  | valueF | bodyF | callF | propertiesF | elementsF
deriving DecidableEq

/-- Read the given field from a value, as JS property access does: reading any
field of `undefined` throws a `TypeError`; reading a field an object does not
have yields `undefined`. -/
def readField : FieldName → Val → Except EErr FieldV
  | _, .jsUndefined => .error (.thrown (.jsError ("TypeError: cannot read properties of undefined")))
  | .valueF, .null => .ok .nullF
  | .valueF, .bool b => .ok (.boolF b)
  | .valueF, .num q => .ok (.numF q)
  | .valueF, .str s => .ok (.strF s)
  | .propertiesF, .obj a => .ok (.propsRef a)
  | .elementsF, .arr a => .ok (.elemsRef a)
  | .bodyF, .fn _ _ _ b => .ok (.bodyRef b)
  | .callF, .nativeFn i => .ok (.callRef i)
  | _, _ => .ok .undefF

/-- JS strict equality `===` on field values: same kind and same payload;
references compare by identity. -/
def jsStrictEq : FieldV → FieldV → Bool
  | .undefF, .undefF => true
  | .nullF, .nullF => true
  | .boolF a, .boolF b => a == b
  | .numF a, .numF b => a == b
  | .strF a, .strF b => a == b
  | .propsRef a, .propsRef b => a == b
  | .elemsRef a, .elemsRef b => a == b
  | .callRef a, .callRef b => a == b
  | .bodyRef a, .bodyRef b => nodeListBEq a b
  | _, _ => false

/-- `equals` (expressions module): dispatches on the left operand's `type`
tag, reads the corresponding field from both operands and applies `===`
(`strict = true`, for `==`) or `!==` (`strict = false`, for `!=`).  An
unhandled left tag (a leaked host string or error object) throws. -/
def equals (lhs rhs : Val) (strict : Bool) : Except EErr Val :=
  let cmp : FieldV → FieldV → Bool := fun a b =>
    if strict then jsStrictEq a b else !(jsStrictEq a b)
  match lhs with
  | .jsUndefined => .error (.thrown (.jsError ("TypeError: cannot read properties of undefined")))
  | .bool b => do
      let f ← readField .valueF rhs
      .ok (.bool (cmp (.boolF b) f))
  | .num q => do
      let f ← readField .valueF rhs
      .ok (.bool (cmp (.numF q) f))
  | .str s => do
      let f ← readField .valueF rhs
      .ok (.bool (cmp (.strF s) f))
  | .fn _ _ _ body => do
      let f ← readField .bodyF rhs
      .ok (.bool (cmp (.bodyRef body) f))
  | .nativeFn i => do
      let f ← readField .callF rhs
      .ok (.bool (cmp (.callRef i) f))
  | .null => do
      let f ← readField .valueF rhs
      .ok (.bool (cmp .nullF f))
  | .obj a => do
      let f ← readField .propertiesF rhs
      .ok (.bool (cmp (.propsRef a) f))
  | .arr a => do
      let f ← readField .elementsF rhs
      .ok (.bool (cmp (.elemsRef a) f))
  | .jsString _ => .error (.thrown (.jsString ("RunTime: Unhandled type in equals function.")))
  | .jsError _ => .error (.thrown (.jsString ("RunTime: Unhandled type in equals function.")))

/-- Truncation toward zero, for the JS `%` (double remainder) on rationals. -/
def ratTrunc (q : ℚ) : ℤ := if 0 ≤ q then ⌊q⌋ else ⌈q⌉

/-- JS `%` abstracted to rationals: remainder with the dividend's sign.
(`a % 0` is NaN in JS; NaN is outside this model and no theorem relies on
that case — it is mapped to 0 here.) -/
def jsMod (a b : ℚ) : ℚ := if b = 0 then 0 else a - b * (ratTrunc (a / b) : ℚ)

/-- `evaluateNumericBinaryExpression` (expressions module): the full binary
operator table.  `|`/`&&` demand boolean operands or silently yield boolean
`false` (the `lhs.type !== ...` tests short-circuit, so the right operand's
tag is only read when the left one passes); `==`/`!=` delegate to `equals`;
every other operator demands numeric operands or silently yields boolean
`false`, then dispatches, throwing on an unknown operator. -/
def evaluateNumericBinaryExpression (lhs rhs : Val) (operator : String) :
    Except EErr Val :=
  if operator == "|" then do
    let tl ← typeTag lhs
    if tl != some ("boolean") then .ok (.bool false)
    else do
      let tr ← typeTag rhs
      if tr != some ("boolean") then .ok (.bool false)
      else
        match lhs, rhs with
        | .bool a, .bool b => .ok (.bool (a || b))
        | _, _ => .error (.internalErr ("boolean tag on non-boolean value"))
  else if operator == "&&" then do
    let tl ← typeTag lhs
    if tl != some ("boolean") then .ok (.bool false)
    else do
      let tr ← typeTag rhs
      if tr != some ("boolean") then .ok (.bool false)
      else
        match lhs, rhs with
        | .bool a, .bool b => .ok (.bool (a && b))
        | _, _ => .error (.internalErr ("boolean tag on non-boolean value"))
  else if operator == "!=" then equals lhs rhs false
  else if operator == "==" then equals lhs rhs true
  else do
    let tl ← typeTag lhs
    if tl != some ("number") then .ok (.bool false)
    else do
      let tr ← typeTag rhs
      if tr != some ("number") then .ok (.bool false)
      else
        match lhs, rhs with
        | .num a, .num b =>
          if operator == "+" then .ok (.num (a + b))
          else if operator == "-" then .ok (.num (a - b))
          else if operator == "*" then .ok (.num (a * b))
          else if operator == "/" then .ok (.num (a / b))
          else if operator == "%" then .ok (.num (jsMod a b))
          else if operator == "<" then .ok (.bool (a < b))
          else if operator == ">" then .ok (.bool (b < a))
          else .error (.thrown (.jsString ("Unknown operator provided in operation.")))
        | _, _ => .error (.internalErr ("number tag on non-number value"))

/-- Lift an environment operation, attaching the pre-operation heap on
failure (declare/assign throw before mutating anything). -/
def liftEnvOp (h : Heap) : Except EErr (Val × Heap) → EvalRes
  | .ok r => .ok r
  | .error e => .error (e, h)

/-- `(node as Identifier).symbol`: `some` for an identifier node, otherwise
JS `undefined` (`none`), as read by `lookupOrMutObject`. -/
def symbolOf : Node → Option String
  | .ident s => some s
  | _ => none

/-- Coerce the JS string-or-undefined property name to a map key. -/
def jsKeyOf : Option String → JsKey
  | some s => .strKey s
  | none => .undefKey

/-- A JS array index: a non-negative integer rational; anything else is a
plain property name rather than an element slot. -/
def arrIdx (q : ℚ) : Option Nat :=
  if q.den = 1 ∧ 0 ≤ q.num then some q.num.toNat else none

/-- JS `elements[n] = v`: update in range, or extend with holes (which read
back as `undefined`). -/
def arrWrite (es : List Val) (n : Nat) (v : Val) : List Val :=
  if n < es.length then es.set n v
  else es ++ List.replicate (n - es.length) .jsUndefined ++ [v]

/-- JS truthiness of a value *as the JS reference it is*, used by the
`if (value)` write guards of `lookupOrMutObject`: every runtime value is a
heap object and hence truthy (including the null value `{type, value}` and
the boolean false value); the JS `undefined` artifact is falsy; a leaked
bare message string is falsy exactly when empty; a host error object is
truthy. -/
def isJsTruthy : Val → Bool
  | .jsUndefined => false
  | .jsString s => s != ""
  | _ => true

set_option maxHeartbeats 2000000

mutual

/-- `evaluate` (interpreter module): single dispatch from node kind to
runtime value.  Fueled: every recursive call decreases the fuel; exhausted
fuel is reported as `outOfFuel` (the source would keep running). -/
def evalN (fuel : Nat) (node : Node) (env : Nat) (h : Heap) : EvalRes :=
  match fuel, node with
  | 0, _ => .error (.outOfFuel, h)
  | fuel + 1, node =>
    match node with
    | .program body =>
        -- evaluateProgram: fold over the body in the same environment,
        -- starting from null, keeping the last evaluated value
        evalSeq fuel body env h .null
    | .numLit v => .ok (.num v, h)
    | .strLit v => .ok (.str v, h)
    | .ident s => ofExcept h (lookupVariable h env s)
    | .objLit props => do
        let (ps, h1) ← evalObjProps fuel props env h []
        let (a, h2) := h1.alloc (.objCell ps)
        .ok (.obj a, h2)
    | .arrLit vals => do
        let (vs, h1) ← evalList fuel vals env h
        let (a, h2) := h1.alloc (.arrCell vs)
        .ok (.arr a, h2)
    | .call callee args => evalCallExpression fuel callee args env h
    | .assign a v => evaluateAssignment fuel (.assign a v) env h
    | .binop l r op => do
        let (lv, h1) ← evalN fuel l env h
        let (rv, h2) ← evalN fuel r env h1
        ofExcept h2 (evaluateNumericBinaryExpression lv rv op)
    | .ifStmt t b a => evalIfStatement fuel t b a env h
    | .forStmt i t u b => evalForStatement fuel i t u b env h
    | .member o p c => lookupOrMutObject fuel (.member o p c) none none env h
    | .tryCatch b a => evalTryCatchStatement fuel b a env h
    | .varDecl c i v => evaluateVariableDeclaration fuel (.varDecl c i v) env h
    | .fnDecl name params body =>
        -- evalFunctionDeclaration: build the closure over the *current*
        -- environment; bind it as a constant unless anonymous
        let fnv := Val.fn name params env body
        if name == "<anonymous>" then .ok (fnv, h)
        else liftEnvOp h (declareVariable h env name fnv true)

termination_by structural fuel

/-- Statement sequence in a fixed scope, threading the last value (the shared
shape of `evaluateProgram`, `evalBody` and the function-body loop). -/
def evalSeq (fuel : Nat) (stmts : List Node) (env : Nat) (h : Heap) (last : Val) : EvalRes :=
  match fuel, stmts with
  | 0, _ => .error (.outOfFuel, h)
  | _ + 1, [] => .ok (last, h)
  | fuel + 1, s :: rest => do
      let (v, h1) ← evalN fuel s env h
      evalSeq fuel rest env h1 v

termination_by structural fuel

/-- `evalBody` (statements module): run a statement list, in a fresh child
scope when `newEnv` is set, returning the last statement's value (null when
empty). -/
def evalBody (fuel : Nat) (body : List Node) (env : Nat) (newEnv : Bool) (h : Heap) : EvalRes :=
  match fuel with
  | 0 => .error (.outOfFuel, h)
  | fuel + 1 =>
      let (scope, h1) := if newEnv then h.alloc (.env ⟨some env, [], []⟩) else (env, h)
      evalSeq fuel body scope h1 .null

termination_by structural fuel

/-- Evaluate a node list left-to-right, collecting the values (used for call
arguments and array literals). -/
def evalList (fuel : Nat) (nodes : List Node) (env : Nat) (h : Heap) :
    Except (EErr × Heap) (List Val × Heap) :=
  match fuel, nodes with
  | 0, _ => .error (.outOfFuel, h)
  | _ + 1, [] => .ok ([], h)
  | fuel + 1, n :: rest => do
      let (v, h1) ← evalN fuel n env h
      let (vs, h2) ← evalList fuel rest env h1
      .ok (v :: vs, h2)

termination_by structural fuel

/-- `evaluateObjectExpression`'s property loop: a shorthand property looks up
the same-named variable; a keyed property evaluates its expression; entries
land in the object map with JS `Map.set` semantics. -/
def evalObjProps (fuel : Nat) (props : List (String × Option Node)) (env : Nat)
    (h : Heap) (acc : List (JsKey × Val)) : Except (EErr × Heap) (List (JsKey × Val) × Heap) :=
  match fuel, props with
  | 0, _ => .error (.outOfFuel, h)
  | _ + 1, [] => .ok (acc, h)
  | fuel + 1, (k, val?) :: rest => do
      let (v, h1) ← match val? with
        | none => ofExcept h (lookupVariable h env k)
        | some e => evalN fuel e env h
      evalObjProps fuel rest env h1 (mapSet acc (.strKey k) v)

termination_by structural fuel

/-- `evaluateVariableDeclaration`: evaluate the optional initializer (default
null), then declare.  The for-statement init is statically a
VariableDeclaration (the parser produces nothing else there). -/
def evaluateVariableDeclaration (fuel : Nat) (node : Node) (env : Nat) (h : Heap) : EvalRes :=
  match fuel, node with
  | 0, _ => .error (.outOfFuel, h)
  | fuel + 1, node =>
    match node with
    | .varDecl c ident val? => do
        let (v, h1) ← match val? with
          | some e => evalN fuel e env h
          | none => .ok (Val.null, h)
        liftEnvOp h1 (declareVariable h1 env ident v c)
    | _ => .error (.internalErr ("init of a for statement is a VariableDeclaration"), h)

termination_by structural fuel

/-- `evaluateAssignment`: member assignees go through path resolution with
the evaluated right-hand side; identifier assignees go through
`assignVariable`; any other node shape throws.  A node that is not an
assignment expression at all (possible for a for-loop update) has no
`assignee` field, and reading `.kind` of `undefined` throws a TypeError. -/
def evaluateAssignment (fuel : Nat) (node : Node) (env : Nat) (h : Heap) : EvalRes :=
  match fuel, node with
  | 0, _ => .error (.outOfFuel, h)
  | fuel + 1, node =>
    match node with
    | .assign assignee value =>
      match assignee with
      | .member o p c => do
          let (v, h1) ← evalN fuel value env h
          lookupOrMutObject fuel (.member o p c) (some v) none env h1
      | .ident s => do
          let (v, h1) ← evalN fuel value env h
          liftEnvOp h1 (assignVariable h1 env s v)
      | _ => .error (.thrown (.jsString ("Invalid left-hand-side expression.")), h)
    | _ => .error (.thrown (.jsError ("TypeError: cannot read properties of undefined")), h)

termination_by structural fuel

/-- `evaluateFunction`: a new scope chained to the function's captured
declaration environment (the call-site environment is not even passed in);
parameters are bound positionally; the body folds like a program body. -/
def evaluateFunction (fuel : Nat) (name : String) (params : List String)
    (declarationEnv : Nat) (body : List Node) (args : List Val) (h : Heap) : EvalRes :=
  match fuel with
  | 0 => .error (.outOfFuel, h)
  | fuel + 1 =>
      let (scope, h1) := h.alloc (.env ⟨some declarationEnv, [], []⟩)
      do
      let h2 ← bindParams fuel params args scope h1
      evalSeq fuel body scope h2 .null

termination_by structural fuel

/-- The parameter-binding loop of `evaluateFunction`: `args[i]` reads past the
end of a JS array yield `undefined`, so a missing argument binds the
parameter to JS `undefined`; arguments beyond the parameter list are never
touched. -/
def bindParams (fuel : Nat) (params : List String) (args : List Val) (scope : Nat)
    (h : Heap) : Except (EErr × Heap) Heap :=
  match fuel, params with
  | 0, _ => .error (.outOfFuel, h)
  | _ + 1, [] => .ok h
  | fuel + 1, p :: ps =>
      let a := match args with
        | [] => Val.jsUndefined
        | x :: _ => x
      match declareVariable h scope p a false with
      | .error e => .error (e, h)
      | .ok (_, h1) => bindParams fuel ps args.tail scope h1

termination_by structural fuel

/-- `evalCallExpression`: the argument list is evaluated first
(`expr.args.map(...)`), then the callee; a native function is an external
collaborator (modelled as returning null); a function value runs through
`evaluateFunction`; anything else throws the catchable not-callable
failure. -/
def evalCallExpression (fuel : Nat) (callee : Node) (args : List Node) (env : Nat)
    (h : Heap) : EvalRes :=
  match fuel with
  | 0 => .error (.outOfFuel, h)
  | fuel + 1 => do
      let (argVals, h1) ← evalList fuel args env h
      let (fnv, h2) ← evalN fuel callee env h1
      match fnv with
      | .nativeFn _ => .ok (.null, h2)
      | .fn name params denv body => evaluateFunction fuel name params denv body argVals h2
      | _ => .error (.thrown (.jsString ("Cannot call value that is not a function.")), h2)

termination_by structural fuel

/-- `Environment.lookupOrMutObject`: resolve the root of the path — the
value of the root identifier, or, recursively, the inner member expression —
then dispatch on the container in `lookupOrMutSwitch`.  A nested path passes
no value and the inner property node along.  A non-identifier,
non-member root reads `.symbol` as undefined and `resolve(undefined)` walks
to the global scope and throws the resolve failure. -/
def lookupOrMutObject (fuel : Nat) (expr : Node) (value : Option Val)
    (property : Option Node) (env : Nat) (h : Heap) : EvalRes :=
  match fuel, expr with
  | 0, _ => .error (.outOfFuel, h)
  | fuel + 1, expr =>
    match expr with
    | .member obj prop _computed => do
      let (pastVal, h1) ←
        (match obj with
         | .member o2 p2 c2 =>
            lookupOrMutObject fuel (.member o2 p2 c2) none (some p2) env h
         | .ident s =>
            -- const env = this.resolve(varname); pastVal = env.variables.get(varname)
            ofExcept h (lookupVariable h env s)
         | _ =>
            (.error (.thrown (.jsString ("Cannot resolve as it does not exist.")), h)))
      lookupOrMutSwitch fuel pastVal prop value property env h1
    | _ => .error (.internalErr ("lookupOrMutObject requires a MemberExpression"), h)

termination_by structural fuel

/-- The `switch (pastVal.type)` of `lookupOrMutObject`.  For an object
container the accessed key is `(expr.property as Identifier).symbol` — the
literal identifier name, never an evaluated value; when the property node is
not an identifier that read is JS `undefined` (falsy), so a read returns the
container itself and a write stores under the `undefined` key.  For an array
container the property expression *is* evaluated and must be a number, else
the catchable keys failure is thrown.  Writes mutate the shared heap cell in
place — but each write is guarded by `if (value)`, JS *truthiness* of the
evaluated right-hand side: assigning the JS `undefined` artifact (or an
empty leaked string) performs no mutation at all, and the expression reads
back the old slot.  Reading `.type` of JS `undefined` throws; every other
container tag falls to the default throw. -/
def lookupOrMutSwitch (fuel : Nat) (pastVal : Val) (prop : Node)
    (value : Option Val) (property : Option Node) (env : Nat) (h : Heap) : EvalRes :=
  match fuel with
  | 0 => .error (.outOfFuel, h)
  | fuel + 1 =>
    match pastVal with
    | .obj a =>
        let currentProp : Option String := symbolOf prop
        let propKey : Option String :=
          match property with
          | some pnode => symbolOf pnode
          | none => currentProp
        let h2 := match value with
          | some v =>
            -- if (value): a JS-falsy right-hand side skips the write entirely
            if isJsTruthy v then
              (match h.getCell a with
               | some (.objCell ps) => h.setCell a (.objCell (mapSet ps (jsKeyOf propKey) v))
               | _ => h)
            else h
          | none => h
        (match currentProp with
         | some s =>
            if s == "" then .ok (.obj a, h2)   -- the empty string is falsy in JS
            else
              (match h2.getCell a with
               | some (.objCell ps) => .ok ((mapGet ps (.strKey s)).getD .jsUndefined, h2)
               | _ => .error (.internalErr ("not an object cell"), h2))
         | none => .ok (.obj a, h2))
    | .arr a => do
        let (numRT, h2) ← evalN fuel prop env h
        let (tg, _) ← ofExcept h2 (typeTag numRT)
        if tg != some ("number") then
          .error (.thrown (.jsString ("Arrays do not have keys.")), h2)
        else
          match numRT with
          | .num q =>
            (match arrIdx q with
             | some n =>
                (match h2.getCell a with
                 | some (.arrCell es) =>
                    (match value with
                     | some v =>
                        -- if (value): a JS-falsy right-hand side skips the write
                        if isJsTruthy v then
                          let es2 := arrWrite es n v
                          .ok ((es2.getD n .jsUndefined), h2.setCell a (.arrCell es2))
                        else .ok (es.getD n .jsUndefined, h2)
                     | none => .ok (es.getD n .jsUndefined, h2))
                 | _ => .error (.internalErr ("not an array cell"), h2))
             | none =>
                -- a negative or fractional index is an ordinary JS property,
                -- not an element slot: a (truthy-guarded) write stores and
                -- reads back the value under that side property, a read or a
                -- skipped write yields undefined.  The side property itself
                -- is not modelled.
                (match value with
                 | some v =>
                    if isJsTruthy v then .ok (v, h2) else .ok (.jsUndefined, h2)
                 | none => .ok (.jsUndefined, h2)))
          | _ => .error (.internalErr ("number tag on non-number value"), h2)
    | .jsUndefined =>
        .error (.thrown (.jsError ("TypeError: cannot read properties of undefined")), h)
    | _ => .error (.thrown (.jsString ("Cannot lookup or mutate this type.")), h)

termination_by structural fuel

/-- `evalIfStatement`: the body runs (in a fresh child scope) iff the test's
`value` field is strictly `=== true`; otherwise the alternate runs (in a
fresh child scope) when the field is present, else the result is null. -/
def evalIfStatement (fuel : Nat) (test : Node) (body : List Node)
    (alternate : Option (List Node)) (env : Nat) (h : Heap) : EvalRes :=
  match fuel with
  | 0 => .error (.outOfFuel, h)
  | fuel + 1 => do
      let (t, h1) ← evalN fuel test env h
      let (b, _) ← ofExcept h1 (isValueTrue t)
      if b then evalBody fuel body env true h1
      else
        match alternate with
        | some alt => evalBody fuel alt env true h1
        | none => .ok (.null, h1)

termination_by structural fuel

/-- `evalForStatement`: one scope for init/test/update; init; if the initial
test is not exactly boolean true, null with no iterations; otherwise the
do-while loop. -/
def evalForStatement (fuel : Nat) (init : Node) (test : Node) (update : Node)
    (body : List Node) (env : Nat) (h : Heap) : EvalRes :=
  match fuel with
  | 0 => .error (.outOfFuel, h)
  | fuel + 1 =>
      let (envA, h1) := h.alloc (.env ⟨some env, [], []⟩)
      do
      let (_, h2) ← evaluateVariableDeclaration fuel init envA h1
      let (t, h3) ← evalN fuel test envA h2
      let (b, _) ← ofExcept h3 (isValueTrue t)
      if !b then .ok (.null, h3)   -- the loop did not start
      else evalForLoop fuel body update test envA h3

termination_by structural fuel

/-- The do-while of `evalForStatement`: body in a fresh child of the loop
scope, update as an assignment against the loop scope, re-evaluate the test;
continue while the re-test's `value` field is *truthy*
(`while ((test as BooleanValue).value)`). -/
def evalForLoop (fuel : Nat) (body : List Node) (update : Node) (test : Node)
    (envA : Nat) (h : Heap) : EvalRes :=
  match fuel with
  | 0 => .error (.outOfFuel, h)
  | fuel + 1 =>
      let (iterA, h1) := h.alloc (.env ⟨some envA, [], []⟩)
      do
      let (_, h2) ← evalBody fuel body iterA false h1
      let (_, h3) ← evaluateAssignment fuel update envA h2
      let (t, h4) ← evalN fuel test envA h3
      let (b, _) ← ofExcept h4 (isValueTruthy t)
      if b then evalForLoop fuel body update test envA h4
      else .ok (.null, h4)

termination_by structural fuel

/-- `evalTryCatchStatement`: the try scope and the catch scope are both
children of the enclosing scope, allocated before the body runs; the body
runs directly in the try scope; a thrown failure is assigned to the name
`error` through the *enclosing* scope's `assignVariable` (so it lands in
whichever scope declared `error`), then the alternate runs directly in the
catch scope. -/
def evalTryCatchStatement (fuel : Nat) (body : List Node) (alternate : List Node)
    (env : Nat) (h : Heap) : EvalRes :=
  match fuel with
  | 0 => .error (.outOfFuel, h)
  | fuel + 1 =>
      let (tryA, h1) := h.alloc (.env ⟨some env, [], []⟩)
      let (catchA, h2) := h1.alloc (.env ⟨some env, [], []⟩)
      match evalBody fuel body tryA false h2 with
      | .ok r => .ok r
      | .error (.thrown e, h3) => do
          let (_, h4) ← liftEnvOp h3 (assignVariable h3 env ("error") e)
          evalBody fuel alternate catchA false h4
      | .error er => .error er

termination_by structural fuel

end

/-- The final heap of a successful evaluation. -/
def finalHeap (fuel : Nat) (node : Node) (env : Nat) (h : Heap) : Option Heap :=
  match evalN fuel node env h with
  | .ok (_, hf) => some hf
  | .error _ => none

/-- The result value of a successful evaluation. -/
def finalValue (fuel : Nat) (node : Node) (env : Nat) (h : Heap) : Option Val :=
  match evalN fuel node env h with
  | .ok (v, _) => some v
  | .error _ => none

/-- The binding of `name` in the local map of the environment cell at `a`. -/
def varAt (h? : Option Heap) (a : Nat) (name : String) : Option Val :=
  match h? with
  | some h =>
    match h.envAt a with
    | some e => mapGet e.vars name
    | none => none
  | none => none

/-- Whether the environment cell at `a` locally binds `name` at all. -/
def hasLocal (h? : Option Heap) (a : Nat) (name : String) : Option Bool :=
  match h? with
  | some h => (h.envAt a).map fun e => mapHas e.vars name
  | none => none

/-! ## Lexer (`tokenize` in the frontend) -/

/-- Token kinds (the `TokenType` enum). -/
inductive TokenType where
  | Number | Identifier | String
  | Let | Const | Fn | If | Else | For
  | BinaryOperator | Equals | Comma | Dot | Colon | Semicolon
  | OpenParen | CloseParen | OpenBrace | CloseBrace | OpenBracket | CloseBracket
  | Quotation | Greater | Lesser | EqualsCompare | NotEqualsCompare
  | Exclamation | And | Ampersand | Bar | Ternary
  | EOF | NewLine
deriving DecidableEq

/-- A token: value text, kind, and the raw spelling. -/
structure Token where
  value : String
  type : TokenType
  raw : String
deriving DecidableEq

/-- `token(value, type)` with `raw` defaulting to the value. -/
def mkTok (value : String) (t : TokenType) : Token := ⟨value, t, value⟩

/-- The `TOKEN_CHARS` single-character table. -/
def TOKEN_CHARS : Char → Option TokenType
  | '(' => some .OpenParen
  | ')' => some .CloseParen
  | '\x7b' => some .OpenBrace
  | '\x7d' => some .CloseBrace
  | '[' => some .OpenBracket
  | ']' => some .CloseBracket
  | '+' => some .BinaryOperator
  | '-' => some .BinaryOperator
  | '*' => some .BinaryOperator
  | '%' => some .BinaryOperator
  | '/' => some .BinaryOperator
  | '<' => some .Lesser
  | '>' => some .Greater
  | '.' => some .Dot
  | ';' => some .Semicolon
  | ':' => some .Colon
  | ',' => some .Comma
  | '|' => some .Bar
  | '\n' => some .NewLine
  | _ => none

/-- The `KEYWORDS` table. -/
def KEYWORDS : String → Option TokenType
  | "let" => some .Let
  | "const" => some .Const
  | "fn" => some .Fn
  | "if" => some .If
  | "else" => some .Else
  | "for" => some .For
  | _ => none

/-- The `ESCAPED` table for string escapes. -/
def ESCAPED : Char → Option Char
  | 'n' => some '\n'
  | 't' => some '\t'
  | 'r' => some '\r'
  | _ => none

/-- `isInt`: a decimal digit. -/
def isIntChar (c : Char) : Bool := c.isDigit

/-- `isAlpha(c, true)`: `[A-Za-z_]`. -/
def isAlphaFirst (c : Char) : Bool :=
  (('a' ≤ c && c ≤ 'z') || ('A' ≤ c && c ≤ 'Z')) || c == '_'

/-- `isAlpha(c)`: `[A-Za-z0-9_]`. -/
def isAlphaRest (c : Char) : Bool := isAlphaFirst c || c.isDigit

/-- `isSkippable`. -/
def isSkippable (c : Char) : Bool :=
  c == ' ' || c == '\n' || c == '\t' || c == '\r'

/-- The token just before the current candidate in `getPrevIdents`:
`tokens[tokens.length - newTokens.length - 2]` (undefined when the index is
out of range). -/
def prevIndexTok (tokens : List Token) (k : Nat) : Option Token :=
  if k + 2 ≤ tokens.length then tokens.get? (tokens.length - k - 2) else none

/-- The backward scan of `getPrevIdents`: walk the emitted tokens from the
end (the reversed list), accepting identifiers, dots, brackets, and numbers
that directly follow an opening bracket, stopping at the first other token;
`k` counts the tokens accepted so far. -/
def getPrevIdentsGo (tokens : List Token) : List Token → Nat → List Token → List Token
  | [], _, acc => acc
  | t :: rest, k, acc =>
    let keep :=
      t.type == TokenType.Identifier || t.type == TokenType.Dot ||
      t.type == TokenType.OpenBracket || t.type == TokenType.CloseBracket ||
      (match prevIndexTok tokens k with
       | some tk => tk.type == TokenType.OpenBracket && t.type == TokenType.Number
       | none => false)
    if keep then getPrevIdentsGo tokens rest (k + 1) (t :: acc) else acc

/-- `getPrevIdents`: the longest trailing run of emitted tokens forming an
assignable path, in source order; `none` when empty. -/
def getPrevIdents (tokens : List Token) : Option (List Token) :=
  let newTokens := getPrevIdentsGo tokens tokens.reverse 0 []
  if newTokens.length > 0 then some newTokens else none

/-- The numeric-literal scan: digits with at most one period.  The first
character (a digit or the leading minus) has already been consumed into
`num`. -/
def readNumberAux : List Char → Bool → String → String × List Char
  | [], _, num => (num, [])
  | c :: rest, period, num =>
    if c == '.' && !period then readNumberAux rest true (num.push c)
    else if c.isDigit then readNumberAux rest period (num.push c)
    else (num, c :: rest)

/-- The string-literal scan (after the opening quote): value text, raw text
(including the closing quote, which the caller strips), remaining input. -/
def readStringAux : List Char → Bool → String → String → String × String × List Char
  | [], _, str, raw => (str, raw, [])
  | c :: rest, escaped, str, raw =>
    let raw1 := raw.push c
    if c == '\\' then
      if !escaped then readStringAux rest true str raw1
      else readStringAux rest false (str.push c) raw1
    else if c == '"' then
      if !escaped then (str, raw1, rest)
      else readStringAux rest false (str.push c) raw1
    else if escaped then
      match ESCAPED c with
      | some e => readStringAux rest false (str.push e) raw1
      | none => readStringAux rest false ((str.push '\\').push c) raw1
    else readStringAux rest false (str.push c) raw1

/-- The identifier scan; the first character has been consumed. -/
def readIdentAux : List Char → String → String × List Char
  | [], acc => (acc, [])
  | c :: rest, acc =>
    if isAlphaRest c then readIdentAux rest (acc.push c) else (acc, c :: rest)

/-- Skip a `/* ... */` block comment: consume until a `*` `/` pair (the scan
starts at the leading `/`, whose characters feed the same last-character
tracking). -/
def skipBlockComment : List Char → Char → List Char
  | [], _ => []
  | c :: rest, lastVal => if lastVal == '*' && c == '/' then rest else skipBlockComment rest c

/-- Skip a `//` line comment: one shift, then shift while the head is not a
newline, then one final shift. -/
def skipLineComment (src : List Char) : List Char :=
  ((src.drop 1).dropWhile (fun c => c != '\n')).drop 1

/-- Lexer failures: an unrecognized character is fatal (`process.exit`);
`hostCrash` marks a TypeError inside the lexer itself (reading `src[1]`
via `charCodeAt` when it is undefined, or the lookback
`tokens[tokens.length - 1].type` on an empty token list). -/
inductive LexErr where
  | unrecognized (c : Char)
  | hostCrash (msg : String)
  | outOfFuel
deriving DecidableEq

/-- One lexing step's outcome: remaining input and emitted tokens. -/
abbrev LexStep := Except LexErr (List Char × List Token)

/-- The `default:` arm of the lexer switch: single-character table tokens,
identifiers/keywords, skippable whitespace, else a fatal unrecognized
character. -/
def lexCaseDefault (char : Char) (rest : List Char) (tokens : List Token) : LexStep :=
  match TOKEN_CHARS char with
  | some tt => .ok (rest, tokens ++ [mkTok (String.singleton char) tt])
  | none =>
    if isAlphaFirst char then
      let (identStr, src2) := readIdentAux rest (String.singleton char)
      let tt := match KEYWORDS identStr with
        | some k => k
        | none => TokenType.Identifier
      .ok (src2, tokens ++ [mkTok identStr tt])
    else if isSkippable char then .ok (rest, tokens)
    else .error (.unrecognized char)

/-- The `case '*': case '/':` arm (also reached by fall-through from `-`/`+`):
compound assignment `OP=` when a trailing assignable path precedes (a missing
path `break`s without consuming anything — in the source that loops forever),
comment skipping for `/`, else the default arm. -/
def lexCaseStarSlash (char : Char) (rest : List Char) (tokens : List Token) : LexStep :=
  if rest.head? == some '=' then
    match getPrevIdents tokens with
    | none => .ok (char :: rest, tokens)
    | some prevtokens =>
        .ok (rest.tail,
          tokens ++ [mkTok "=" TokenType.Equals] ++ prevtokens ++
            [mkTok (String.singleton char) TokenType.BinaryOperator])
  else if char == '/' then
    if rest.head? == some '*' then .ok (skipBlockComment (char :: rest) '\x00', tokens)
    else if rest.head? == some '/' then .ok (skipLineComment (char :: rest), tokens)
    else lexCaseDefault char rest tokens
  else lexCaseDefault char rest tokens

/-- The `case '+':` arm (also reached by fall-through from `-`): `++`/`--`
increment sugar when a trailing assignable path precedes, else fall through
to the `*`/`/` arm. -/
def lexCasePlus (char : Char) (rest : List Char) (tokens : List Token) : LexStep :=
  if rest.head? == some char then
    match getPrevIdents tokens with
    | some prevtokens =>
        .ok (rest.tail,
          tokens ++ [mkTok "=" TokenType.Equals] ++ prevtokens ++
            [mkTok (String.singleton char) TokenType.BinaryOperator,
             mkTok "1" TokenType.Number])
    | none => lexCaseStarSlash char rest tokens
  else lexCaseStarSlash char rest tokens

/-- One iteration of the `tokenize` while loop.  The leading condition
`isInt(char) || (char == '-' && isInt(src[1]))` merges a minus directly
followed by a digit into a single numeric literal with *no* lookback at the
emitted tokens; the later `case '-':` of the switch (ternary arrow, the
synthetic-zero insertion guarded by the lookback, increment sugar, or plain
operator) only runs when the character after the minus is not a digit.
`isInt(src[1])` on one remaining character calls `charCodeAt` on `undefined`
and crashes, as does the `tokens[tokens.length - 1]` lookback with no emitted
token. -/
def lexStep (char : Char) (rest : List Char) (tokens : List Token) : LexStep :=
  if char.isDigit then
    let (num, src2) := readNumberAux rest false (String.singleton char)
    .ok (src2, tokens ++ [mkTok num TokenType.Number])
  else if char == '-' then
    match rest with
    | [] => .error (.hostCrash ("charCodeAt of undefined"))
    | c2 :: rest2 =>
      if c2.isDigit then
        let (num, src2) := readNumberAux (c2 :: rest2) false (String.singleton char)
        .ok (src2, tokens ++ [mkTok num TokenType.Number])
      else if c2 == '>' then .ok (rest2, tokens ++ [mkTok "->" TokenType.Ternary])
      else if c2 != '-' then
        match getPrevIdents tokens with
        | none =>
          match tokens.getLast? with
          | none => .error (.hostCrash ("reading type of undefined"))
          | some lastTok =>
            if lastTok.type != TokenType.CloseParen then
              .ok (c2 :: rest2,
                tokens ++ [mkTok "0" TokenType.Number, mkTok "-" TokenType.BinaryOperator])
            else lexCasePlus char rest tokens
        | some _ => lexCasePlus char rest tokens
      else lexCasePlus char rest tokens
  else if char == '=' then
    if rest.head? == some '=' then .ok (rest.tail, tokens ++ [mkTok "==" TokenType.EqualsCompare])
    else .ok (rest, tokens ++ [mkTok "=" TokenType.Equals])
  else if char == '&' then
    if rest.head? == some '&' then .ok (rest.tail, tokens ++ [mkTok "&&" TokenType.And])
    else .ok (rest, tokens ++ [mkTok "&" TokenType.Ampersand])
  else if char == '!' then
    if rest.head? == some '=' then .ok (rest.tail, tokens ++ [mkTok "!=" TokenType.NotEqualsCompare])
    else .ok (rest, tokens ++ [mkTok "!" TokenType.Exclamation])
  else if char == '"' then
    let (str, raw, src2) := readStringAux rest false "" ""
    .ok (src2, tokens ++ [⟨str, TokenType.String, raw.dropRight 1⟩])
  else if char == '+' then lexCasePlus char rest tokens
  else if char == '*' || char == '/' then lexCaseStarSlash char rest tokens
  else lexCaseDefault char rest tokens

/-- The `tokenize` while loop.  Every terminating path consumes at least one
character per iteration, so `length + 1` fuel suffices; the one
non-consuming path (`OP=` with no preceding assignable path) loops forever
in the source and exhausts the fuel here. -/
def tokenizeLoop (fuel : Nat) (src : List Char) (tokens : List Token) :
    Except LexErr (List Token) :=
  match fuel with
  | 0 => .error .outOfFuel
  | fuel + 1 =>
    match src with
    | [] => .ok tokens
    | char :: rest =>
      match lexStep char rest tokens with
      | .ok (src2, tokens2) => tokenizeLoop fuel src2 tokens2
      | .error e => .error e

/-- `tokenize`: run the loop on the source characters and append the
end-of-file marker. -/
def tokenize (sourceCode : String) : Except LexErr (List Token) :=
  match tokenizeLoop (sourceCode.length + 1) sourceCode.toList [] with
  | .ok ts => .ok (ts ++ [mkTok "EndOfFile" TokenType.EOF])
  | .error e => .error e

/-! ## Concrete fixtures used by counterexamples and witnesses -/

/-- A single-cell heap: one empty global environment. -/
def emptyGlobalHeap : Heap := [.env ⟨none, [], []⟩]

/-- Heap for the for-loop counterexample: a global scope with `x` bound to
boolean true (the loop test variable) and two number-valued helpers. -/
def forCounterHeap : Heap :=
  [.env ⟨none, [("x", .bool true), ("t", .num 1), ("u", .num 0)], []⟩]

/-- The for-loop counterexample statement:
`for (let i = 0; x; u = u) { x = t; t = u }`.
The test `x` starts as boolean true; the first iteration sets `x` to the
number 1 (truthy but not the boolean true) and the second sets it to the
number 0 (falsy). -/
def forCounterNode : Node :=
  .forStmt (.varDecl false ("i") (some (.numLit 0))) (.ident "x")
    (.assign (.ident "u") (.ident "u"))
    [.assign (.ident "x") (.ident "t"), .assign (.ident "t") (.ident "u")]

/-- Heap for the try/catch counterexample: a global scope (cell 0) declaring
`error` (as `createGlobalEnvironment` does) and a nested scope (cell 1) that
will enclose the try/catch. -/
def tryCounterHeap : Heap :=
  [.env ⟨none, [("error", .null)], []⟩, .env ⟨some 0, [], []⟩]

/-- `try { zz } catch { "caught" }` where `zz` is undeclared. -/
def tryCounterNode : Node := .tryCatch [.ident "zz"] [.strLit "caught"]

/-- Heap for the call-order counterexample: a global scope declaring `error`
and a mutable `x` initially 0. -/
def callCounterHeap : Heap :=
  [.env ⟨none, [("error", .null), ("x", .num 0)], []⟩]

/-- `try { (x = 1)(x = 2) } catch { 7 }`: the callee expression sets `x` to 1,
the single argument expression sets `x` to 2; the call target (the number 1)
is not callable, so the catch runs.  The final value of `x` records which of
the two ran last. -/
def callCounterNode : Node := .tryCatch
  [.call (.assign (.ident "x") (.numLit 1)) [.assign (.ident "x") (.numLit 2)]]
  [.numLit 7]

/-- Heap for the member-access counterexample: `o` is an object with the
single property `"x" ↦ 1`; `k` is the string `"x"`. -/
def memberCounterHeap : Heap :=
  [.env ⟨none, [("o", .obj 1), ("k", .str "x")], []⟩,
   .objCell [(.strKey "x", .num 1)]]

/-- The aliasing program from the specification:
`const a = { x: 1 }; let b = a; b.x = 2; a.x`. -/
def aliasNode : Node := .program
  [.varDecl true ("a") (some (.objLit [("x", some (.numLit 1))])),
   .varDecl false ("b") (some (.ident "a")),
   .assign (.member (.ident "b") (.ident "x") false) (.numLit 2),
   .member (.ident "a") (.ident "x") false]

/-- `fn f(p) { p }; f()`: a user function called with fewer arguments than
parameters, returning the unbound parameter. -/
def missingArgNode : Node :=
  .program [.fnDecl ("f") ["p"] [.ident "p"], .call (.ident "f") []]

/-- `fn f(p) { p }; const o = { x: 1 }; o.x = f(); o.x`: the assigned
right-hand side is the JS `undefined` artifact (a missing argument), so the
`if (value)` guard skips the write and the final read still yields 1. -/
def skipWriteNode : Node := .program
  [.fnDecl ("f") ["p"] [.ident "p"],
   .varDecl true ("o") (some (.objLit [("x", some (.numLit 1))])),
   .assign (.member (.ident "o") (.ident "x") false) (.call (.ident "f") []),
   .member (.ident "o") (.ident "x") false]

/-! ## Claim theorems -/

/-- Boolean negation on the boolean runtime value, identity elsewhere. -/
def valNot : Val → Val
  | .bool b => .bool (!b)
  | v => v

/-- `equals` with `strict = false` computes exactly the negation of
`equals` with `strict = true`: both read the same per-tag fields and apply
`===` versus `!==`. -/
theorem equals_false_eq_map_valNot (l r : Val) :
    equals l r false = (equals l r true).map valNot := by
  cases l <;> cases r <;> rfl

/-- C9 (implicit, algebraic): for all operand expressions, evaluating the
BinaryExpression `a != b` yields exactly the boolean negation of evaluating
`a == b` (same sub-evaluations and side effects, same failures; a produced
value is always a boolean, negated between the two operators). -/
theorem neq_is_negation_of_eq (fuel : Nat) (a b : Node) (env : Nat) (h : Heap) :
    evalN fuel (.binop a b "!=") env h =
      (evalN fuel (.binop a b "==") env h).map (fun p => (valNot p.1, p.2)) := by
  cases fuel with
  | zero => rfl
  | succ f =>
    simp only [evalN]
    cases hA : evalN f a env h with
    | error e => rfl
    | ok p =>
      obtain ⟨lv, h1⟩ := p
      show Except.bind (evalN f b env h1)
          (fun q => ofExcept q.2 (evaluateNumericBinaryExpression lv q.1 "!=")) =
        Except.map (fun p => (valNot p.1, p.2))
          (Except.bind (evalN f b env h1)
            (fun q => ofExcept q.2 (evaluateNumericBinaryExpression lv q.1 "==")))
      cases hB : evalN f b env h1 with
      | error e => rfl
      | ok q =>
        obtain ⟨rv, h2⟩ := q
        show ofExcept h2 (equals lv rv false) =
          Except.map (fun p => (valNot p.1, p.2)) (ofExcept h2 (equals lv rv true))
        rw [equals_false_eq_map_valNot]
        cases equals lv rv true <;> rfl

/-- The tag of a value is `boolean` exactly for boolean values. -/
def Val.isBoolV : Val → Bool
  | .bool _ => true
  | _ => false

/-- The tag of a value is `number` exactly for number values. -/
def Val.isNumV : Val → Bool
  | .num _ => true
  | _ => false

/-- The arithmetic and comparison operators that demand numeric operands. -/
def numericOps : List String := ["+", "-", "*", "/", "%", "<", ">"]

/-- Fixture for the raised-failure contrast: `a` is an array. -/
def arrayHeap : Heap := [.env ⟨none, [("a", .arr 1)], []⟩, .arrCell [.num 7]]

/-- C8 (explicit, error handling): operand-type mismatches for the logical
operators (`&&`, `|`: some operand not a boolean) and for the
arithmetic/comparison operators (`+ - * / % < >`: some operand not a number)
silently yield the boolean value `false` and never raise; by contrast, a
non-numeric array index and a non-callable call target raise catchable
(thrown) failures, exhibited here on concrete programs. -/
theorem silent_type_mismatch (l r : Val) (op : String)
    (hl : l.isRuntimeValue = true) (hr : r.isRuntimeValue = true) :
    ((op = "&&" ∨ op = "|") → (l.isBoolV = false ∨ r.isBoolV = false) →
        evaluateNumericBinaryExpression l r op = .ok (.bool false)) ∧
    (op ∈ numericOps → (l.isNumV = false ∨ r.isNumV = false) →
        evaluateNumericBinaryExpression l r op = .ok (.bool false)) ∧
    lookupOrMutObject 5 (.member (.ident "a") (.strLit "i") true) none none 0 arrayHeap
      = .error (.thrown (.jsString ("Arrays do not have keys.")), arrayHeap) ∧
    evalCallExpression 5 (.numLit 3) [] 0 emptyGlobalHeap
      = .error (.thrown (.jsString ("Cannot call value that is not a function.")),
          emptyGlobalHeap) := by
  refine ⟨?_, ?_, rfl, rfl⟩
  · rintro (rfl | rfl) hmis <;>
      cases l <;> simp_all [Val.isRuntimeValue, Val.isBoolV] <;>
      cases r <;> simp_all [evaluateNumericBinaryExpression, typeTag, Val.isBoolV] <;> rfl
  · intro hop hmis
    simp only [numericOps, List.mem_cons, List.not_mem_nil, or_false] at hop
    rcases hop with rfl | rfl | rfl | rfl | rfl | rfl | rfl <;>
      cases l <;> simp_all [Val.isRuntimeValue, Val.isNumV] <;>
      cases r <;> simp_all [evaluateNumericBinaryExpression, typeTag, Val.isNumV] <;> rfl

/-- Witness for C8: the string `"a"` plus the number `1` is the silent
boolean `false`. -/
theorem silent_type_mismatch_witness :
    evaluateNumericBinaryExpression (.str "a") (.num 1) "+" = .ok (.bool false) :=
  (silent_type_mismatch (.str "a") (.num 1) "+" rfl rfl).2.1 (by simp [numericOps])
    (Or.inl rfl)

/-- The strict `=== true` check as a Boolean predicate on values: a boolean
whose flag is exactly `true`, nothing else. -/
def isExactlyTrue : Val → Bool
  | .bool b => b
  | _ => false

/-- C4 (explicit): an IfStatement runs its body (in a fresh child scope)
exactly when the test evaluates to a boolean whose flag is exactly `true`;
every other runtime value — boolean false or any non-boolean — runs the
alternate (in a fresh child scope) when present and otherwise yields null;
no truthiness coercion is applied to non-booleans. -/
theorem ifStatement_strict_boolean (fuel : Nat) (test : Node) (body : List Node)
    (alternate : Option (List Node)) (env : Nat) (h : Heap) (v : Val) (h1 : Heap)
    (hev : evalN fuel test env h = .ok (v, h1)) (hv : v.isRuntimeValue = true) :
    evalIfStatement (fuel + 1) test body alternate env h =
      if isExactlyTrue v then evalBody fuel body env true h1
      else
        match alternate with
        | some alt => evalBody fuel alt env true h1
        | none => .ok (.null, h1) := by
  show Except.bind (evalN fuel test env h)
      (fun t => Except.bind (ofExcept t.2 (isValueTrue t.1))
        (fun b => if b.1 then evalBody fuel body env true t.2
          else
            match alternate with
            | some alt => evalBody fuel alt env true t.2
            | none => .ok (.null, t.2))) = _
  rw [hev]
  cases v <;> simp_all [isValueTrue, isExactlyTrue, ofExcept, Except.bind, Val.isRuntimeValue]

/-- Witness for C4: a test value that is the *number* 1 (truthy in JS, but
not the boolean true) takes the alternate branch. -/
theorem ifStatement_strict_boolean_witness :
    evalIfStatement 5 (.numLit 1) [.strLit "a"] (some [.strLit "b"]) 0 emptyGlobalHeap =
      evalBody 4 [.strLit "b"] 0 true emptyGlobalHeap := by
  have h := ifStatement_strict_boolean 4 (.numLit 1) [.strLit "a"] (some [.strLit "b"]) 0
      emptyGlobalHeap (.num 1) emptyGlobalHeap rfl rfl
  simpa [isExactlyTrue] using h

/-- One-step unfolding of the for-loop do-while in explicit bind form. -/
theorem evalForLoop_succ (f : Nat) (body : List Node) (update test : Node)
    (envA : Nat) (h : Heap) :
    evalForLoop (f + 1) body update test envA h =
      Except.bind
        (evalBody f body (h.alloc (.env ⟨some envA, [], []⟩)).1 false
          (h.alloc (.env ⟨some envA, [], []⟩)).2)
        (fun r1 => Except.bind (evaluateAssignment f update envA r1.2)
          (fun r2 => Except.bind (evalN f test envA r2.2)
            (fun r3 => Except.bind (ofExcept r3.2 (isValueTruthy r3.1))
              (fun rb => if rb.1 then evalForLoop f body update test envA r3.2
                else .ok (.null, r3.2))))) := rfl

/-- Any normal result of the for-loop do-while is the null value. -/
theorem evalForLoop_ok_null (fuel : Nat) (body : List Node) (update test : Node)
    (envA : Nat) : ∀ (h : Heap) (p : Val × Heap),
    evalForLoop fuel body update test envA h = .ok p → p.1 = .null := by
  induction fuel with
  | zero => intro h p hp; simp [evalForLoop] at hp
  | succ f ih =>
    intro h p hp
    rw [evalForLoop_succ] at hp
    cases hE1 : evalBody f body (h.alloc (.env ⟨some envA, [], []⟩)).1 false
        (h.alloc (.env ⟨some envA, [], []⟩)).2 with
    | error e => rw [hE1] at hp; simp [Except.bind] at hp
    | ok r1 =>
      rw [hE1] at hp
      simp only [Except.bind] at hp
      cases hE2 : evaluateAssignment f update envA r1.2 with
      | error e => rw [hE2] at hp; simp [Except.bind] at hp
      | ok r2 =>
        rw [hE2] at hp
        simp only [Except.bind] at hp
        cases hE3 : evalN f test envA r2.2 with
        | error e => rw [hE3] at hp; simp [Except.bind] at hp
        | ok r3 =>
          rw [hE3] at hp
          simp only [Except.bind] at hp
          cases hE4 : ofExcept r3.2 (isValueTruthy r3.1) with
          | error e => rw [hE4] at hp; simp [Except.bind] at hp
          | ok rb =>
            rw [hE4] at hp
            simp only [Except.bind] at hp
            split at hp
            · exact ih _ _ hp
            · cases hp; rfl

/-- One-step unfolding of the for statement in explicit bind form. -/
theorem evalForStatement_succ (f : Nat) (init test update : Node) (body : List Node)
    (env : Nat) (h : Heap) :
    evalForStatement (f + 1) init test update body env h =
      Except.bind
        (evaluateVariableDeclaration f init (h.alloc (.env ⟨some env, [], []⟩)).1
          (h.alloc (.env ⟨some env, [], []⟩)).2)
        (fun r1 => Except.bind (evalN f test (h.alloc (.env ⟨some env, [], []⟩)).1 r1.2)
          (fun r2 => Except.bind (ofExcept r2.2 (isValueTrue r2.1))
            (fun rb => if !rb.1 then .ok (.null, r2.2)
              else evalForLoop f body update test
                (h.alloc (.env ⟨some env, [], []⟩)).1 r2.2))) := rfl

/-- Any normal result of a for statement is the null value. -/
theorem evalForStatement_ok_null (fuel : Nat) (init test update : Node)
    (body : List Node) (env : Nat) (h : Heap) (p : Val × Heap)
    (hp : evalForStatement fuel init test update body env h = .ok p) : p.1 = .null := by
  cases fuel with
  | zero => simp [evalForStatement] at hp
  | succ f =>
    rw [evalForStatement_succ] at hp
    cases hE1 : evaluateVariableDeclaration f init (h.alloc (.env ⟨some env, [], []⟩)).1
        (h.alloc (.env ⟨some env, [], []⟩)).2 with
    | error e => rw [hE1] at hp; simp [Except.bind] at hp
    | ok r1 =>
      rw [hE1] at hp
      simp only [Except.bind] at hp
      cases hE2 : evalN f test (h.alloc (.env ⟨some env, [], []⟩)).1 r1.2 with
      | error e => rw [hE2] at hp; simp [Except.bind] at hp
      | ok r2 =>
        rw [hE2] at hp
        simp only [Except.bind] at hp
        cases hE3 : ofExcept r2.2 (isValueTrue r2.1) with
        | error e => rw [hE3] at hp; simp [Except.bind] at hp
        | ok rb =>
          rw [hE3] at hp
          simp only [Except.bind] at hp
          split at hp
          · cases hp; rfl
          · exact evalForLoop_ok_null f body update test _ _ _ hp

/-- C10 (implicit): evaluating a ForStatement always yields the null runtime
value whenever it terminates normally — regardless of how many iterations
ran and of the last body statement's value. -/
theorem forStatement_always_null (fuel : Nat) (init test update : Node)
    (body : List Node) (env : Nat) (h : Heap)
    (hok : ∃ p, evalN fuel (.forStmt init test update body) env h = .ok p) :
    ∃ hf, evalN fuel (.forStmt init test update body) env h = .ok (.null, hf) := by
  obtain ⟨p, hp⟩ := hok
  cases fuel with
  | zero => simp [evalN] at hp
  | succ f =>
    have hp' : evalForStatement f init test update body env h = .ok p := hp
    have hn := evalForStatement_ok_null f init test update body env h p hp'
    obtain ⟨v, hh⟩ := p
    exact ⟨hh, by rw [hp, ← hn]⟩

/-- Witness for C10: a loop whose test is the number 0 (zero iterations)
yields null. -/
theorem forStatement_always_null_witness :
    ∃ hf, evalN 10 (.forStmt (.varDecl false ("i") (some (.numLit 0))) (.numLit 0)
        (.assign (.ident "i") (.numLit 1)) []) 0 emptyGlobalHeap = .ok (.null, hf) :=
  forStatement_always_null 10 _ _ _ _ 0 emptyGlobalHeap ⟨_, rfl⟩

/-- Modelled from the corrected claim (C1), the loop part: run the body in a
fresh nested child of the loop scope, evaluate the update as an assignment
against the loop scope, re-evaluate the test, and *continue while the
re-test's `value` field is JS-truthy* — its flag for a boolean, nonzero for
a number, nonempty for a string, and falsy for null and every field-less
value — rather than only on exactly boolean true. -/
def forLoopSpec (fuel : Nat) (body : List Node) (update test : Node)
    (loopScope : Nat) (h : Heap) : EvalRes :=
  match fuel with
  | 0 => .error (.outOfFuel, h)
  | fuel + 1 =>
      -- a fresh nested child scope of the loop scope, discarded each iteration
      let (iterScope, h1) := h.alloc (.env ⟨some loopScope, [], []⟩)
      do
      let (_, h2) ← evalBody fuel body iterScope false h1
      let (_, h3) ← evaluateAssignment fuel update loopScope h2
      let (t, h4) ← evalN fuel test loopScope h3
      let (b, _) ← ofExcept h4 (isValueTruthy t)
      if b then forLoopSpec fuel body update test loopScope h4
      else .ok (.null, h4)

/-- Modelled from the corrected claim (C1): one fresh scope for
init/test/update; run init; if the initial test is not exactly boolean true,
yield null with zero iterations; otherwise enter the do-while loop. -/
def forStatementSpec (fuel : Nat) (init test update : Node) (body : List Node)
    (env : Nat) (h : Heap) : EvalRes :=
  match fuel with
  | 0 => .error (.outOfFuel, h)
  | fuel + 1 =>
      let (loopScope, h1) := h.alloc (.env ⟨some env, [], []⟩)
      do
      let (_, h2) ← evaluateVariableDeclaration fuel init loopScope h1
      let (t, h3) ← evalN fuel test loopScope h2
      let (b, _) ← ofExcept h3 (isValueTrue t)
      if !b then .ok (.null, h3)
      else forLoopSpec fuel body update test loopScope h3

/-- One-step unfolding of `forLoopSpec` in explicit bind form. -/
theorem forLoopSpec_succ (f : Nat) (body : List Node) (update test : Node)
    (loopScope : Nat) (h : Heap) :
    forLoopSpec (f + 1) body update test loopScope h =
      Except.bind (evalBody f body (h.alloc (.env ⟨some loopScope, [], []⟩)).1 false
          (h.alloc (.env ⟨some loopScope, [], []⟩)).2)
        (fun r1 => Except.bind (evaluateAssignment f update loopScope r1.2)
          (fun r2 => Except.bind (evalN f test loopScope r2.2)
            (fun r3 => Except.bind (ofExcept r3.2 (isValueTruthy r3.1))
              (fun rb => if rb.1 then forLoopSpec f body update test loopScope r3.2
                else .ok (.null, r3.2))))) := rfl

/-- The do-while of the source for statement agrees with the corrected-claim
loop semantics. -/
theorem evalForLoop_eq_forLoopSpec (fuel : Nat) (body : List Node)
    (update test : Node) (loopScope : Nat) : ∀ h : Heap,
    evalForLoop fuel body update test loopScope h =
      forLoopSpec fuel body update test loopScope h := by
  induction fuel with
  | zero => intro h; rfl
  | succ f ih =>
    intro h
    rw [evalForLoop_succ, forLoopSpec_succ]
    simp only [ih]

/-- C1 (corrected): a ForStatement creates one loop scope, runs init, and
yields null with zero iterations when the initial test is not exactly the
boolean true; otherwise it repeatedly runs the body in a fresh nested child
scope, evaluates the update as an assignment against the loop scope and
re-evaluates the test — but the loop stops only when the re-test's `value`
field is JS-*falsy*, not as soon as it differs from boolean true: a nonzero
number or nonempty string re-test keeps the loop running. -/
theorem forStatement_semantics (fuel : Nat) (init test update : Node)
    (body : List Node) (env : Nat) (h : Heap) :
    evalForStatement fuel init test update body env h =
      forStatementSpec fuel init test update body env h := by
  cases fuel with
  | zero => rfl
  | succ f =>
    show _ = forStatementSpec (f + 1) init test update body env h
    have hspec : forStatementSpec (f + 1) init test update body env h =
        Except.bind (evaluateVariableDeclaration f init
            (h.alloc (.env ⟨some env, [], []⟩)).1 (h.alloc (.env ⟨some env, [], []⟩)).2)
          (fun r1 => Except.bind (evalN f test (h.alloc (.env ⟨some env, [], []⟩)).1 r1.2)
            (fun r2 => Except.bind (ofExcept r2.2 (isValueTrue r2.1))
              (fun rb => if !rb.1 then .ok (.null, r2.2)
                else forLoopSpec f body update test
                  (h.alloc (.env ⟨some env, [], []⟩)).1 r2.2))) := rfl
    rw [evalForStatement_succ, hspec]
    simp only [evalForLoop_eq_forLoopSpec]

/-- Counterexample to C1 as stated.  In `forCounterHeap`, the test variable
`x` starts as boolean true; the first iteration sets `x` to the number 1, so
the first re-test is not exactly boolean true — by the claim the loop should
stop there, leaving `x = 1`.  The code instead treats the number 1 as truthy
and runs a second iteration, after which `x` (and `t`) are 0.  The last two
conjuncts isolate the asymmetry between the initial check and the re-check
on the very value the re-test produced. -/
theorem forStatement_retest_counterexample :
    finalValue 30 forCounterNode 0 forCounterHeap = some .null ∧
    varAt (finalHeap 30 forCounterNode 0 forCounterHeap) 0 ("x") = some (.num 0) ∧
    varAt (finalHeap 30 forCounterNode 0 forCounterHeap) 0 ("t") = some (.num 0) ∧
    Val.num 1 ≠ Val.bool true ∧
    isValueTrue (.num 1) = .ok false ∧
    isValueTruthy (.num 1) = .ok true :=
  ⟨rfl, rfl, rfl, by simp, rfl, rfl⟩

/-- Modelled from the corrected claim (C2): the try scope and catch scope are
fresh children of the enclosing scope; the body runs in the try scope; when a
statement of the body raises a failure, the raised value is stored under the
name `error` in the nearest scope — searching outward from the *enclosing*
scope — that *declared* `error` (the global scope by default; the enclosing
scope itself gains no local binding unless it is that declaring scope), and
this itself fails if no scope declared `error` or the declaring scope marked
it constant; then the catch statements run in the catch scope.  With no
failure, the try body's last value is the result. -/
def tryCatchSpec (fuel : Nat) (body alternate : List Node) (env : Nat) (h : Heap) :
    EvalRes :=
  match fuel with
  | 0 => .error (.outOfFuel, h)
  | fuel + 1 =>
      let (tryScope, h1) := h.alloc (.env ⟨some env, [], []⟩)
      let (catchScope, h2) := h1.alloc (.env ⟨some env, [], []⟩)
      match evalBody fuel body tryScope false h2 with
      | .ok r => .ok r
      | .error (.thrown e, h3) =>
          (match resolve h3 env ("error") with
           | .error er => .error (er, h3)
           | .ok target =>
             match h3.envAt target with
             | none => .error (.internalErr ("not an environment cell"), h3)
             | some e2 =>
               if e2.consts.contains ("error") then
                 .error (.thrown (.jsString
                   ("Cannot reassign to constant variable error.")), h3)
               else
                 evalBody fuel alternate catchScope false
                   (h3.setCell target (.env { e2 with
                     vars := mapSet e2.vars ("error") e })))
      | .error er => .error er

/-- `assignVariable` in explicit match form: resolve the declaring scope
from the given one, refuse constants, update the binding in place there. -/
theorem assignVariable_cases (h : Heap) (a : Nat) (varname : String) (v : Val) :
    assignVariable h a varname v =
      (match resolve h a varname with
       | .error er => .error er
       | .ok target =>
         match h.envAt target with
         | none => .error (.internalErr ("not an environment cell"))
         | some e2 =>
           if e2.consts.contains varname then
             .error (.thrown (.jsString
               ("Cannot reassign to constant variable " ++ varname ++ ".")))
           else .ok (v, h.setCell target
             (.env { e2 with vars := mapSet e2.vars varname v }))) := by
  unfold assignVariable
  cases resolve h a varname <;> rfl

/-- One-step unfolding of the source try/catch in explicit form. -/
theorem evalTryCatchStatement_succ (f : Nat) (body alternate : List Node)
    (env : Nat) (h : Heap) :
    evalTryCatchStatement (f + 1) body alternate env h =
      (match evalBody f body (h.alloc (.env ⟨some env, [], []⟩)).1 false
          (((h.alloc (.env ⟨some env, [], []⟩)).2).alloc (.env ⟨some env, [], []⟩)).2 with
       | .ok r => .ok r
       | .error (.thrown e, h3) =>
          Except.bind (liftEnvOp h3 (assignVariable h3 env ("error") e))
            (fun r => evalBody f alternate
              (((h.alloc (.env ⟨some env, [], []⟩)).2).alloc (.env ⟨some env, [], []⟩)).1
              false r.2)
       | .error er => .error er) := rfl

/-- C2 (corrected): try/catch runs its body in a fresh try scope; a raised
failure is assigned to `error` by the ordinary assignment resolution started
at the *enclosing* scope, so the value lands in the nearest enclosing scope
that declared `error` — the global scope by default — rather than being
bound in the enclosing scope itself; the catch statements then run in their
own child scope of the enclosing scope; with no failure the try body's last
value is the result. -/
theorem tryCatch_error_binding (fuel : Nat) (body alternate : List Node)
    (env : Nat) (h : Heap) :
    evalTryCatchStatement fuel body alternate env h =
      tryCatchSpec fuel body alternate env h := by
  cases fuel with
  | zero => rfl
  | succ f =>
    rw [evalTryCatchStatement_succ]
    show _ = (match evalBody f body (h.alloc (.env ⟨some env, [], []⟩)).1 false
        (((h.alloc (.env ⟨some env, [], []⟩)).2).alloc (.env ⟨some env, [], []⟩)).2 with
      | .ok r => .ok r
      | .error (.thrown e, h3) =>
          (match resolve h3 env ("error") with
           | .error er => .error (er, h3)
           | .ok target =>
             match h3.envAt target with
             | none => .error (.internalErr ("not an environment cell"), h3)
             | some e2 =>
               if e2.consts.contains ("error") then
                 .error (.thrown (.jsString
                   ("Cannot reassign to constant variable error.")), h3)
               else
                 evalBody f alternate
                   (((h.alloc (.env ⟨some env, [], []⟩)).2).alloc
                     (.env ⟨some env, [], []⟩)).1 false
                   (h3.setCell target (.env { e2 with
                     vars := mapSet e2.vars ("error") e })))
      | .error er => .error er)
    cases hB : evalBody f body (h.alloc (.env ⟨some env, [], []⟩)).1 false
        (((h.alloc (.env ⟨some env, [], []⟩)).2).alloc (.env ⟨some env, [], []⟩)).2 with
    | ok r => rfl
    | error er =>
      obtain ⟨ek, h3⟩ := er
      cases ek with
      | outOfFuel => rfl
      | internalErr m => rfl
      | thrown e =>
        show Except.bind (liftEnvOp h3 (assignVariable h3 env ("error") e))
            (fun r => evalBody f alternate
              (((h.alloc (.env ⟨some env, [], []⟩)).2).alloc (.env ⟨some env, [], []⟩)).1
              false r.2) =
          (match resolve h3 env ("error") with
           | .error er => .error (er, h3)
           | .ok target =>
             match h3.envAt target with
             | none => .error (.internalErr ("not an environment cell"), h3)
             | some e2 =>
               if e2.consts.contains ("error") then
                 .error (.thrown (.jsString
                   ("Cannot reassign to constant variable error.")), h3)
               else
                 evalBody f alternate
                   (((h.alloc (.env ⟨some env, [], []⟩)).2).alloc
                     (.env ⟨some env, [], []⟩)).1 false
                   (h3.setCell target (.env { e2 with
                     vars := mapSet e2.vars ("error") e })))
        rw [assignVariable_cases]
        cases resolve h3 env ("error") with
        | error er2 => rfl
        | ok target =>
          show Except.bind (liftEnvOp h3
              (match h3.envAt target with
               | none => Except.error (EErr.internalErr ("not an environment cell"))
               | some e2 =>
                 if e2.consts.contains ("error") then
                   Except.error (EErr.thrown (Val.jsString
                     ("Cannot reassign to constant variable " ++ "error" ++ ".")))
                 else Except.ok (e, h3.setCell target (.env { e2 with
                   vars := mapSet e2.vars ("error") e }))))
            (fun r => evalBody f alternate
              (((h.alloc (.env ⟨some env, [], []⟩)).2).alloc (.env ⟨some env, [], []⟩)).1
              false r.2) =
            (match h3.envAt target with
             | none => .error (.internalErr ("not an environment cell"), h3)
             | some e2 =>
               if e2.consts.contains ("error") then
                 .error (.thrown (.jsString
                   ("Cannot reassign to constant variable error.")), h3)
               else evalBody f alternate
                 (((h.alloc (.env ⟨some env, [], []⟩)).2).alloc
                   (.env ⟨some env, [], []⟩)).1 false
                 (h3.setCell target (.env { e2 with
                   vars := mapSet e2.vars ("error") e })))
          cases h3.envAt target with
          | none => rfl
          | some e2 =>
            by_cases hc : e2.consts.contains ("error") = true
            · simp only [hc, if_true]; rfl
            · simp only [hc, Bool.false_eq_true, if_false]; rfl

/-- Counterexample to C2 as stated: with the global scope (cell 0) declaring
`error` and the enclosing scope (cell 1) a plain child, a failure raised in
the try body is *not* bound in the enclosing scope — its local map stays
empty — but lands in the global scope that declared `error`. -/
theorem tryCatch_enclosing_scope_counterexample :
    finalValue 30 tryCounterNode 1 tryCounterHeap = some (.str "caught") ∧
    hasLocal (finalHeap 30 tryCounterNode 1 tryCounterHeap) 1 ("error") = some false ∧
    varAt (finalHeap 30 tryCounterNode 1 tryCounterHeap) 0 ("error") =
      some (.jsString ("Cannot resolve zz as it does not exist.")) :=
  ⟨rfl, rfl, rfl⟩

/-- Modelled from the corrected claim (C3): a CallExpression evaluates every
argument expression left-to-right *first*, then evaluates the callee; a
native function is an external collaborator; a user function runs through
`evaluateFunction`; any other callee raises the catchable not-callable
failure. -/
def callExpressionSpec (fuel : Nat) (callee : Node) (args : List Node) (env : Nat)
    (h : Heap) : EvalRes :=
  match fuel with
  | 0 => .error (.outOfFuel, h)
  | fuel + 1 => do
      let (argVals, h1) ← evalList fuel args env h
      let (fnv, h2) ← evalN fuel callee env h1
      match fnv with
      | .nativeFn _ => .ok (.null, h2)
      | .fn name params denv body => evaluateFunction fuel name params denv body argVals h2
      | _ => .error (.thrown (.jsString ("Cannot call value that is not a function.")), h2)

/-- C3 (corrected): the evaluator computes the argument values (left to
right) *before* evaluating the callee expression; the evaluated callee must
be a function or native-function, else a catchable not-callable failure is
raised. -/
theorem callExpression_argument_order (fuel : Nat) (callee : Node)
    (args : List Node) (env : Nat) (h : Heap) :
    evalCallExpression fuel callee args env h =
      callExpressionSpec fuel callee args env h := by
  cases fuel <;> rfl

/-- Counterexample to C3 as stated: in `try { (x = 1)(x = 2) } catch { 7 }`
the callee side effect (`x = 1`) lands *after* the argument side effect
(`x = 2`): the final `x` is 1.  Under the claimed callee-before-arguments
order it would be 2. -/
theorem callExpression_order_counterexample :
    finalValue 30 callCounterNode 0 callCounterHeap = some (.num 7) ∧
    varAt (finalHeap 30 callCounterNode 0 callCounterHeap) 0 ("x") = some (.num 1) ∧
    Val.num 1 ≠ Val.num 2 := by
  refine ⟨rfl, rfl, ?_⟩
  simp only [ne_eq, Val.num.injEq]
  norm_num

/-- The parameter-binding loop only ever reads the first
`params.length` arguments: extra call arguments are ignored. -/
theorem bindParams_take (params : List String) : ∀ (fuel : Nat) (args : List Val)
    (scope : Nat) (h : Heap),
    bindParams fuel params args scope h =
      bindParams fuel params (args.take params.length) scope h := by
  induction params with
  | nil => intro fuel args scope h; cases fuel <;> rfl
  | cons p ps ih =>
    intro fuel args scope h
    cases fuel with
    | zero => rfl
    | succ f =>
      cases args with
      | nil => rfl
      | cons a as =>
        show (match declareVariable h scope p a false with
            | .error e => .error (e, h)
            | .ok (_, h1) => bindParams f ps as scope h1 :
              Except (EErr × Heap) Heap) =
          (match declareVariable h scope p a false with
            | .error e => .error (e, h)
            | .ok (_, h1) => bindParams f ps (as.take ps.length) scope h1)
        cases declareVariable h scope p a false with
        | error e => rfl
        | ok r => exact ih f as scope r.2

/-- C6 (corrected): for a call of a user-defined function, the call scope is
a fresh child of the function's *captured* declaration environment (the
call-site environment is not even passed to `evaluateFunction`); parameters
are bound positionally, arguments beyond the parameter list are ignored, and
a parameter with no corresponding argument is bound to the host's JS
`undefined` value — not to the null runtime value — with no arity error
raised at binding time. -/
theorem evaluateFunction_missing_args (name : String) (denv : Nat)
    (body : List Node) :
    (∀ (fuel : Nat) (params : List String) (args : List Val) (scope : Nat) (h : Heap),
        bindParams fuel params args scope h =
          bindParams fuel params (args.take params.length) scope h) ∧
    (∀ (fuel : Nat) (p : String) (ps : List String) (scope : Nat) (h : Heap),
        bindParams (fuel + 1) (p :: ps) [] scope h =
          match declareVariable h scope p Val.jsUndefined false with
          | .error e => .error (e, h)
          | .ok (_, h1) => bindParams fuel ps [] scope h1) ∧
    (∀ (fuel : Nat) (params : List String) (args : List Val) (h : Heap),
        evaluateFunction (fuel + 1) name params denv body args h =
          (let (scope, h1) := h.alloc (.env ⟨some denv, [], []⟩)
           Except.bind (bindParams fuel params args scope h1)
             (fun h2 => evalSeq fuel body scope h2 .null))) :=
  ⟨fun fuel params args scope h => bindParams_take params fuel args scope h,
   fun _ _ _ _ _ => rfl,
   fun _ _ _ _ => rfl⟩

/-- Counterexample to C6 as stated: `fn f(p) { p }; f()` evaluates to the JS
`undefined` artifact stored for the missing argument, which is a different
value from the null runtime value the claim promises. -/
theorem missing_arg_counterexample :
    finalValue 30 missingArgNode 0 emptyGlobalHeap = some .jsUndefined ∧
    Val.jsUndefined ≠ Val.null := ⟨rfl, by simp⟩

/-- Reading a key just written with JS `Map.set` semantics yields the new
value. -/
theorem mapGet_mapSet (m : List (JsKey × Val)) (k : JsKey) (v : Val) :
    mapGet (mapSet m k v) k = some v := by
  induction m with
  | nil => simp [mapGet, mapSet]
  | cons p rest ih =>
    obtain ⟨k1, v1⟩ := p
    by_cases hk : (k1 == k) = true
    · simp [mapSet, hk, mapGet, List.find?]
    · simp only [mapSet, hk, Bool.false_eq_true, if_false]
      simpa [mapGet, List.find?, hk] using ih

/-- Reading back a cell just overwritten at a valid address. -/
theorem getCell_setCell_self (h : Heap) : ∀ (a : Nat) (c c0 : Cell),
    h.getCell a = some c0 → (h.setCell a c).getCell a = some c := by
  induction h with
  | nil => intro a c c0 hc; simp [Heap.getCell, List.get?] at hc
  | cons x xs ih =>
    intro a c c0 hc
    cases a with
    | zero => rfl
    | succ n => exact ih n c c0 hc

/-- Path roots: a member expression rooted at an identifier first reads the
root variable (resolution from the evaluating scope), then dispatches on the
container. -/
theorem lookupOrMutObject_ident (fuel : Nat) (s : String) (prop : Node)
    (computed : Bool) (value : Option Val) (property : Option Node) (env : Nat)
    (h : Heap) :
    lookupOrMutObject (fuel + 1) (.member (.ident s) prop computed) value property env h =
      Except.bind (ofExcept h (lookupVariable h env s))
        (fun pv => lookupOrMutSwitch fuel pv.1 prop value property env pv.2) := rfl

/-- C5 (corrected): member reads/writes through the path-resolution
algorithm.  Root identifiers resolve through the environment (first
conjunct).  For an *object* container the slot key is the property node's
literal identifier symbol — for dotted and computed access alike, the
property expression is never evaluated (second, fourth, fifth conjuncts); a
computed access whose property is not an identifier does not read a slot at
all: it yields the container itself (third conjunct).  A write is guarded by
JS truthiness of the evaluated right-hand side: a truthy value mutates the
shared heap cell in place, so aliases observe it (fourth conjunct, and the
specification's aliasing program in the second-to-last conjunct), while a
JS-falsy value — the JS `undefined` artifact of a missing argument, or an
empty leaked string — skips the write entirely and the expression reads
back the old slot (fifth conjunct, and the missing-argument assignment
program in the last conjunct).  For an *array* container the bracket
expression *is* evaluated and must be a number, used as the integer element
index (sixth conjunct), and a non-number index raises a catchable failure
(seventh conjunct). -/
theorem memberPath_semantics (fuel : Nat) (env : Nat) (h : Heap) :
    (∀ (s : String) (prop : Node) (computed : Bool) (value : Option Val)
        (property : Option Node),
      lookupOrMutObject (fuel + 1) (.member (.ident s) prop computed) value property env h =
        Except.bind (ofExcept h (lookupVariable h env s))
          (fun pv => lookupOrMutSwitch fuel pv.1 prop value property env pv.2)) ∧
    (∀ (pname : String) (a : Nat) (props : List (JsKey × Val)),
      h.getCell a = some (.objCell props) → (pname == "") = false →
      lookupOrMutSwitch (fuel + 1) (.obj a) (.ident pname) none none env h =
        .ok ((mapGet props (.strKey pname)).getD .jsUndefined, h)) ∧
    (∀ (q : String) (a : Nat),
      lookupOrMutSwitch (fuel + 1) (.obj a) (.strLit q) none none env h =
        .ok (.obj a, h)) ∧
    (∀ (pname : String) (a : Nat) (props : List (JsKey × Val)) (v : Val),
      h.getCell a = some (.objCell props) → (pname == "") = false →
      isJsTruthy v = true →
      lookupOrMutSwitch (fuel + 1) (.obj a) (.ident pname) (some v) none env h =
        .ok (v, h.setCell a (.objCell (mapSet props (.strKey pname) v)))) ∧
    (∀ (pname : String) (a : Nat) (props : List (JsKey × Val)) (v : Val),
      h.getCell a = some (.objCell props) → (pname == "") = false →
      isJsTruthy v = false →
      lookupOrMutSwitch (fuel + 1) (.obj a) (.ident pname) (some v) none env h =
        .ok ((mapGet props (.strKey pname)).getD .jsUndefined, h)) ∧
    (∀ (idx : ℚ) (a : Nat) (es : List Val) (n : Nat),
      h.getCell a = some (.arrCell es) → arrIdx idx = some n →
      lookupOrMutSwitch (fuel + 2) (.arr a) (.numLit idx) none none env h =
        .ok (es.getD n .jsUndefined, h)) ∧
    (∀ (q : String) (a : Nat),
      lookupOrMutSwitch (fuel + 2) (.arr a) (.strLit q) none none env h =
        .error (.thrown (.jsString ("Arrays do not have keys.")), h)) ∧
    finalValue 30 aliasNode 0 emptyGlobalHeap = some (.num 2) ∧
    finalValue 40 skipWriteNode 0 emptyGlobalHeap = some (.num 1) := by
  refine ⟨fun s prop computed value property =>
      lookupOrMutObject_ident fuel s prop computed value property env h,
    ?_, ?_, ?_, ?_, ?_, ?_, rfl, rfl⟩
  · intro pname a props hcell hp
    show (match (some pname : Option String) with
      | some s =>
          if s == "" then Except.ok (Val.obj a, h)
          else
            (match h.getCell a with
             | some (.objCell ps) =>
                Except.ok ((mapGet ps (.strKey s)).getD Val.jsUndefined, h)
             | _ => Except.error (EErr.internalErr ("not an object cell"), h))
      | none => Except.ok (Val.obj a, h)) = _
    rw [hcell]
    simp [hp]
  · intro q a; rfl
  · intro pname a props v hcell hp htv
    show (let h2 := (if isJsTruthy v then
          (match h.getCell a with
           | some (.objCell ps) => h.setCell a (.objCell (mapSet ps (jsKeyOf (some pname)) v))
           | _ => h)
        else h)
      (match (some pname : Option String) with
       | some s =>
          if s == "" then Except.ok (Val.obj a, h2)
          else
            (match h2.getCell a with
             | some (.objCell ps) =>
                Except.ok ((mapGet ps (.strKey s)).getD Val.jsUndefined, h2)
             | _ => Except.error (EErr.internalErr ("not an object cell"), h2))
       | none => Except.ok (Val.obj a, h2))) = _
    rw [if_pos htv, hcell]
    have hset := getCell_setCell_self h a
      (.objCell (mapSet props (jsKeyOf (some pname)) v)) (.objCell props) hcell
    simp only [jsKeyOf] at hset ⊢
    rw [hset]
    simp [hp, mapGet_mapSet]
  · intro pname a props v hcell hp htv
    show (let h2 := (if isJsTruthy v then
          (match h.getCell a with
           | some (.objCell ps) => h.setCell a (.objCell (mapSet ps (jsKeyOf (some pname)) v))
           | _ => h)
        else h)
      (match (some pname : Option String) with
       | some s =>
          if s == "" then Except.ok (Val.obj a, h2)
          else
            (match h2.getCell a with
             | some (.objCell ps) =>
                Except.ok ((mapGet ps (.strKey s)).getD Val.jsUndefined, h2)
             | _ => Except.error (EErr.internalErr ("not an object cell"), h2))
       | none => Except.ok (Val.obj a, h2))) = _
    rw [if_neg (by simp [htv])]
    show (match (some pname : Option String) with
       | some s =>
          if s == "" then Except.ok (Val.obj a, h)
          else
            (match h.getCell a with
             | some (.objCell ps) =>
                Except.ok ((mapGet ps (.strKey s)).getD Val.jsUndefined, h)
             | _ => Except.error (EErr.internalErr ("not an object cell"), h))
       | none => Except.ok (Val.obj a, h)) = _
    rw [hcell]
    simp [hp]
  · intro idx a es n hcell hidx
    show Except.bind (evalN (fuel + 1) (.numLit idx) env h)
        (fun r => Except.bind (ofExcept r.2 (typeTag r.1))
          (fun tg => if tg.1 != some ("number") then
              Except.error (EErr.thrown (Val.jsString ("Arrays do not have keys.")), r.2)
            else
              match r.1 with
              | .num q =>
                (match arrIdx q with
                 | some n =>
                    (match r.2.getCell a with
                     | some (.arrCell es) => Except.ok (es.getD n Val.jsUndefined, r.2)
                     | _ => Except.error (EErr.internalErr ("not an array cell"), r.2))
                 | none => Except.ok (Val.jsUndefined, r.2))
              | _ => Except.error (EErr.internalErr ("number tag on non-number value"), r.2))) = _
    show (match arrIdx idx with
       | some n =>
          (match h.getCell a with
           | some (.arrCell es) => Except.ok (es.getD n Val.jsUndefined, h)
           | _ => Except.error (EErr.internalErr ("not an array cell"), h))
       | none => Except.ok (Val.jsUndefined, h)) = _
    rw [hidx, hcell]
  · intro q a; rfl

/-- Counterexample to C5 as stated: with `o ↦ {"x": 1}` and `k ↦ "x"`, the
computed accesses `o["x"]` and `o[k]` do *not* read the slot keyed by the
evaluated string `"x"` (whose value is the number 1, last conjunct): the
string-literal key returns the whole container and the identifier key is
taken literally as the absent key `"k"`, yielding JS undefined. -/
theorem memberPath_computed_key_counterexample :
    finalValue 10 (.member (.ident "o") (.strLit "x") true) 0 memberCounterHeap =
      some (.obj 1) ∧
    Val.obj 1 ≠ Val.num 1 ∧
    finalValue 10 (.member (.ident "o") (.ident "k") true) 0 memberCounterHeap =
      some .jsUndefined ∧
    varAt (some memberCounterHeap) 0 ("k") = some (.str "x") ∧
    mapGet [(JsKey.strKey "x", Val.num 1)] (.strKey "x") = some (.num 1) :=
  ⟨rfl, by simp, rfl, rfl, rfl⟩

/-- Witness for C5: dotted read `o.x` in `memberCounterHeap` yields the
number 1 through the literal-identifier key. -/
theorem memberPath_semantics_witness :
    lookupOrMutSwitch 3 (.obj 1) (.ident "x") none none 0 memberCounterHeap =
      .ok (.num 1, memberCounterHeap) := by
  have hc := (memberPath_semantics 2 0 memberCounterHeap).2.1 ("x") 1
    [(.strKey "x", .num 1)] rfl rfl
  simpa [mapGet, List.find?] using hc

/-- A minus directly followed by a digit always starts a numeric literal:
the leading condition of the lexer loop fires with no lookback at the
emitted tokens. -/
theorem lexStep_minus_digit (c2 : Char) (rest : List Char) (tokens : List Token)
    (hd : c2.isDigit = true) :
    lexStep '-' (c2 :: rest) tokens =
      .ok ((readNumberAux (c2 :: rest) false (String.singleton '-')).2,
        tokens ++ [mkTok (readNumberAux (c2 :: rest) false (String.singleton '-')).1
          TokenType.Number]) := by
  simp [lexStep, hd]

/-- A minus before a non-digit, non-`>`, non-`-` character, with no trailing
assignable-path run and a previous token that is not a closing parenthesis,
emits the synthetic `0` and a binary minus. -/
theorem lexStep_minus_synthetic_zero (c2 : Char) (rest : List Char)
    (tokens : List Token) (lastTok : Token)
    (hd : c2.isDigit = false) (hgt : (c2 == '>') = false) (hmm : (c2 == '-') = false)
    (hprev : getPrevIdents tokens = none) (hlast : tokens.getLast? = some lastTok)
    (hcp : (lastTok.type == TokenType.CloseParen) = false) :
    lexStep '-' (c2 :: rest) tokens =
      .ok (c2 :: rest,
        tokens ++ [mkTok "0" TokenType.Number, mkTok "-" TokenType.BinaryOperator]) := by
  have hmm1 : ¬ (c2 = '-') := by simpa using hmm
  have hcp1 : ¬ (lastTok.type = TokenType.CloseParen) := by simpa using hcp
  simp [lexStep, hd, hgt, hprev, hlast, hmm1, hcp1]

/-- C7 (corrected): during lexing, a `-` immediately preceding a digit is
*always* merged into a single numeric-literal token, regardless of the
preceding emitted token — the lookback plays no role there.  The lookback
governs only a `-` that does *not* precede a digit (and is not `->` or
`--`): when the backward scan finds no trailing assignable-path run and the
previous emitted token is not a closing parenthesis, a synthetic `0` number
token and a binary `-` are emitted so that `-x` lexes as `0 - x`. -/
theorem lexer_minus_handling :
    (∀ (fuel : Nat) (c2 : Char) (rest : List Char) (tokens : List Token),
      c2.isDigit = true →
      tokenizeLoop (fuel + 1) ('-' :: c2 :: rest) tokens =
        tokenizeLoop fuel (readNumberAux (c2 :: rest) false (String.singleton '-')).2
          (tokens ++ [mkTok (readNumberAux (c2 :: rest) false (String.singleton '-')).1
            TokenType.Number])) ∧
    (∀ (fuel : Nat) (c2 : Char) (rest : List Char) (tokens : List Token)
        (lastTok : Token),
      c2.isDigit = false → (c2 == '>') = false → (c2 == '-') = false →
      getPrevIdents tokens = none → tokens.getLast? = some lastTok →
      (lastTok.type == TokenType.CloseParen) = false →
      tokenizeLoop (fuel + 1) ('-' :: c2 :: rest) tokens =
        tokenizeLoop fuel (c2 :: rest)
          (tokens ++ [mkTok "0" TokenType.Number,
            mkTok "-" TokenType.BinaryOperator])) := by
  constructor
  · intro fuel c2 rest tokens hd
    show (match lexStep '-' (c2 :: rest) tokens with
      | .ok (src2, tokens2) => tokenizeLoop fuel src2 tokens2
      | .error e => .error e) = _
    rw [lexStep_minus_digit c2 rest tokens hd]
  · intro fuel c2 rest tokens lastTok hd hgt hmm hprev hlast hcp
    show (match lexStep '-' (c2 :: rest) tokens with
      | .ok (src2, tokens2) => tokenizeLoop fuel src2 tokens2
      | .error e => .error e) = _
    rw [lexStep_minus_synthetic_zero c2 rest tokens lastTok hd hgt hmm hprev hlast hcp]

/-- Witness for C7: after an identifier, `-5` lexes as the single number
`-5`; after an opening parenthesis, `-x` lexes as `0`, `-`, with `x` left
in the input. -/
theorem lexer_minus_handling_witness :
    tokenizeLoop 4 ['-', '5'] [mkTok "a" TokenType.Identifier] =
      tokenizeLoop 3 [] [mkTok "a" TokenType.Identifier, mkTok "-5" TokenType.Number] ∧
    tokenizeLoop 4 ['-', 'x'] [mkTok "(" TokenType.OpenParen] =
      tokenizeLoop 3 ['x'] [mkTok "(" TokenType.OpenParen, mkTok "0" TokenType.Number,
        mkTok "-" TokenType.BinaryOperator] :=
  ⟨lexer_minus_handling.1 3 '5' [] [mkTok "a" TokenType.Identifier] rfl,
   lexer_minus_handling.2 3 'x' [] [mkTok "(" TokenType.OpenParen]
     (mkTok "(" TokenType.OpenParen) rfl rfl rfl rfl rfl rfl⟩

/-- Counterexample to C7 as stated: in `a-5` the token preceding the minus
is an identifier, so by the claim the minus must lex as binary subtraction —
but the lexer emits the single number token `-5`.  With a space before the
digit (`a - 5`) subtraction is emitted, pinning the discrepancy on the
digit-adjacency, not the lookback. -/
theorem minus_digit_counterexample :
    tokenize ("a-5") =
      .ok [mkTok "a" TokenType.Identifier, mkTok "-5" TokenType.Number,
        mkTok "EndOfFile" TokenType.EOF] ∧
    tokenize ("a-5") ≠
      .ok [mkTok "a" TokenType.Identifier, mkTok "-" TokenType.BinaryOperator,
        mkTok "5" TokenType.Number, mkTok "EndOfFile" TokenType.EOF] ∧
    tokenize ("a - 5") =
      .ok [mkTok "a" TokenType.Identifier, mkTok "-" TokenType.BinaryOperator,
        mkTok "5" TokenType.Number, mkTok "EndOfFile" TokenType.EOF] := by
  refine ⟨rfl, ?_, rfl⟩
  intro hc
  have h0 : tokenize ("a-5") =
      .ok [mkTok "a" TokenType.Identifier, mkTok "-5" TokenType.Number,
        mkTok "EndOfFile" TokenType.EOF] := rfl
  rw [h0] at hc
  have hl := Except.ok.inj hc
  have : (mkTok "-5" TokenType.Number) = (mkTok "-" TokenType.BinaryOperator) :=
    (List.cons.inj (List.cons.inj hl).2).1
  exact absurd this (by decide)

end RizzScript
